import Mathlib

/-!
# Verification of the tic-tac-toe game engine

Shallow embedding of `src/tic-tac-toe/game.js` (class `TicTacToe`) and the
`Stack` / `Queue` classes of `data-structures.js`.  JavaScript `null` board
cells become `Option Player`; the 9-cell board array becomes a `List Cell`;
the in-place mutate-then-restore pattern used by `findWinningMove` and
`minimax` becomes functional `List.set` (the JS code always restores the cell
to `null` before returning, so the caller-visible behaviour is identical).
The `Stack` is a list with its head as the top; the `Queue` is a list with
its head as the front.
-/

/-- The two marks, `'X'` (human) and `'O'` (computer). -/
inductive Player where
  | X : Player
  | O : Player
deriving DecidableEq, Repr

/-- A board cell: `null` in JS is `none`. -/
abbrev Cell := Option Player

/-- The 9-cell board, row-major, indices 0–8 (`this.board`). -/
abbrev Board := List Cell

/-- `this.currentPlayer = this.currentPlayer === 'X' ? 'O' : 'X'` -/
def otherPlayer : Player → Player
  | Player.X => Player.O
  | Player.O => Player.X

/-- The eight win patterns of `checkWinner`: rows, columns, diagonals. -/
def winPatterns : List (List Nat) :=
  [[0, 1, 2], [3, 4, 5], [6, 7, 8],
   [0, 3, 6], [1, 4, 7], [2, 5, 8],
   [0, 4, 8], [2, 4, 6]]

/-- `checkWinner(player, board)`: some winning pattern is fully occupied by
`player` (`winPatterns.some(pattern => pattern.every(i => board[i] === player))`). -/
def checkWinner (player : Player) (board : Board) : Bool :=
  winPatterns.any fun pattern =>
    pattern.all fun index => board.getD index none == some player

/-- `board.map((cell, idx) => cell === null ? idx : null).filter(idx => idx !== null)`:
the indices of empty cells, in ascending order. -/
def emptyIndices (board : Board) : List Nat :=
  (List.range board.length).filter fun idx => (board.getD idx none).isNone

/-- Result object of `minimax`: `{score}` at terminal boards, `{index, score}`
otherwise. -/
structure MMResult where
  index : Option Nat
  score : Int
deriving DecidableEq, Repr

/-- Fuel-indexed version of the recursive `minimax(board, player)`.  The JS
recursion terminates because each recursive call fills one empty cell; the
fuel argument makes that termination measure explicit, and `minimax` below
always supplies enough fuel (`board.length + 1`).  The `moves` array of the
JS code is here `evalMove e :: es.map evalMove`.  The JS selection loop
tracks `bestScore`/`bestMove` and replaces the best move only on a strict
improvement (`>` for 'O', `<` for 'X') starting from ±Infinity, i.e. it
keeps the first-encountered optimum among `moves`; the `foldl` from the head
move computes that same element. -/
def minimaxF : Nat → Board → Player → MMResult
  | 0, _, _ => ⟨none, 0⟩
  | fuel + 1, board, player =>
    if checkWinner Player.X board then ⟨none, -10⟩
    else if checkWinner Player.O board then ⟨none, 10⟩
    else
      match emptyIndices board with
      | [] => ⟨none, 0⟩
      | e :: es =>
        let evalMove := fun idx =>
          let result := minimaxF fuel (board.set idx (some player)) (otherPlayer player)
          (⟨some idx, result.score⟩ : MMResult)
        let m := evalMove e
        let ms := es.map evalMove
        if player == Player.O then
          ms.foldl (fun acc x => if acc.score < x.score then x else acc) m
        else
          ms.foldl (fun acc x => if x.score < acc.score then x else acc) m

/-- `minimax(board, player)` of `game.js`. -/
def minimax (board : Board) (player : Player) : MMResult :=
  minimaxF (board.length + 1) board player

/-- The empty board `Array(9).fill(null)`. -/
def emptyBoard : Board :=
  [none, none, none, none, none, none, none, none, none]

/-- `findWinningMove(player)`: try each empty cell in ascending order, return
the first whose placement makes `checkWinner(player)` true.  The JS function
mutates `this.board[index]` and restores it to `null` before returning, so
it is the pure search below; JS encodes "no winning move" as `-1`, modelled
as `none`. -/
def findWinningMove (player : Player) (board : Board) : Option Nat :=
  (emptyIndices board).find? fun index =>
    checkWinner player (board.set index (some player))

/-- The AI difficulty (`this.difficulty`, default `'medium'`). -/
inductive Difficulty where
  | easy : Difficulty
  | medium : Difficulty
  | hard : Difficulty
deriving DecidableEq, Repr

/-- The move-selection logic of `computerMove` (lines 125–158 of `game.js`),
as a pure function of the visible state.  Returns the selected cell and the
updated `aiRandomMovesUsed` counter.  `Math.random()` is modelled by the
oracle `rand : Nat`: the JS picks `emptyIndices[Math.floor(Math.random() *
emptyIndices.length)]`, i.e. an arbitrary position of `emptyIndices`, here
position `rand % emptyIndices.length`.  The JS can produce `move =
undefined` only when `minimax` returns a terminal result with no index;
that is the `none` outcome. -/
def chooseMove (board : Board) (difficulty : Difficulty) (aiRandomMovesUsed : Nat)
    (rand : Nat) : Option Nat × Nat :=
  let emptyIdx := emptyIndices board
  match findWinningMove Player.O board with
  | some aiWinMove => (some aiWinMove, aiRandomMovesUsed)
  | none =>
    match findWinningMove Player.X board with
    | some humanWinMove => (some humanWinMove, aiRandomMovesUsed)
    | none =>
      match difficulty with
      | Difficulty.hard => ((minimax board Player.O).index, aiRandomMovesUsed)
      | Difficulty.medium =>
        if aiRandomMovesUsed < 1 then
          (emptyIdx.get? (rand % emptyIdx.length), aiRandomMovesUsed + 1)
        else ((minimax board Player.O).index, aiRandomMovesUsed)
      | Difficulty.easy =>
        if aiRandomMovesUsed < 2 then
          (emptyIdx.get? (rand % emptyIdx.length), aiRandomMovesUsed + 1)
        else ((minimax board Player.O).index, aiRandomMovesUsed)

/-- The move record built by `makeMove`:
`{ index, player, board: [...this.board], aiRandomMovesUsed }`. -/
structure MoveData where
  index : Nat
  player : Player
  board : Board
  aiRandomMovesUsed : Nat
deriving DecidableEq, Repr

/-- The mutable fields of the `TicTacToe` class.  `this.moveHistory` is a
`Stack` (modelled with the head of the list as the top) and
`this.redoHistory` a `Queue` (head of the list = front).  `reviewIndex`
starts at `-1`, hence `Int`.  UI-only state (DOM, buttons) is excluded. -/
structure GameState where
  board : Board
  currentPlayer : Player
  gameActive : Bool
  difficulty : Difficulty
  moveHistory : List MoveData
  redoHistory : List MoveData
  reviewMode : Bool
  allMoves : List MoveData
  reviewIndex : Int
  aiRandomMovesUsed : Nat
deriving DecidableEq, Repr

/-- The constructor's initial state (difficulty is whatever is selected). -/
def initialState (difficulty : Difficulty) : GameState where
  board := emptyBoard
  currentPlayer := Player.X
  gameActive := true
  difficulty := difficulty
  moveHistory := []
  redoHistory := []
  reviewMode := false
  allMoves := []
  reviewIndex := -1
  aiRandomMovesUsed := 0

/-- `makeMove(index, player)`: place the mark, record the move (appending to
`allMoves`, pushing onto `moveHistory`, clearing `redoHistory`), then end
the game on a win or a full board, else switch `currentPlayer`. -/
def makeMove (s : GameState) (index : Nat) (player : Player) : GameState :=
  let board := s.board.set index (some player)
  let moveData : MoveData :=
    ⟨index, player, board, s.aiRandomMovesUsed⟩
  let s' := { s with
    board := board
    allMoves := s.allMoves ++ [moveData]
    moveHistory := moveData :: s.moveHistory
    redoHistory := [] }
  if checkWinner player board then
    { s' with gameActive := false }
  else if board.all fun cell => cell.isSome then
    { s' with gameActive := false }
  else
    { s' with currentPlayer := otherPlayer s.currentPlayer }

/-- `handleCellClick`: ignore the click unless the game is live, the cell is
free and it is the human's turn.  `this.board[index] !== null` is true in JS
both for an occupied cell and for an out-of-range index (where the access
yields `undefined`).  The deferred `setTimeout(() => this.computerMove(), 500)`
is modelled as a separate transition (`computerMove` below), since it runs
later against whatever state then holds. -/
def handleCellClick (s : GameState) (index : Nat) : GameState :=
  if s.reviewMode || !s.gameActive
      || !(decide (index < s.board.length) && (s.board.getD index none).isNone)
      || s.currentPlayer != Player.X then
    s
  else
    makeMove s index Player.X

/-- `computerMove()`: no-op when the game is inactive; otherwise select a
move via the logic of `chooseMove` and play it as `'O'`.  In the (in live
play unreachable) case where `minimax` yields no index, JS executes
`this.board[undefined] = 'O'`, which leaves all nine cells unchanged; that
case is modelled as leaving the board state unchanged. -/
def computerMove (s : GameState) (rand : Nat) : GameState :=
  if !s.gameActive then s
  else
    match chooseMove s.board s.difficulty s.aiRandomMovesUsed rand with
    | (some move, counter) => makeMove { s with aiRandomMovesUsed := counter } move Player.O
    | (none, counter) => { s with aiRandomMovesUsed := counter }

/-- `displayReviewMove()`: show `allMoves[reviewIndex].board` when the index
is in range, else the empty board. -/
def displayReviewMove (s : GameState) : GameState :=
  if 0 ≤ s.reviewIndex ∧ s.reviewIndex < (s.allMoves.length : Int) then
    match s.allMoves.get? s.reviewIndex.toNat with
    | some move => { s with board := move.board }
    | none => s
  else
    { s with board := emptyBoard }

/-- `moveBackward()`: in review mode navigate to the previous move (guard:
`this.reviewIndex > 0`); in normal mode undo the last move: pop the stack,
enqueue the popped record, pop `allMoves`, restore board / player / counter
from the new stack top (or the initial state when the stack emptied), and
reactivate the game. -/
def moveBackward (s : GameState) : GameState :=
  if s.reviewMode then
    if s.reviewIndex > 0 then
      displayReviewMove { s with reviewIndex := s.reviewIndex - 1 }
    else s
  else
    match s.moveHistory with
    | [] => s
    | lastMove :: rest =>
      let s' := { s with
        moveHistory := rest
        redoHistory := s.redoHistory ++ [lastMove]
        allMoves := s.allMoves.dropLast }
      match rest with
      | [] =>
        { s' with
          board := emptyBoard
          currentPlayer := Player.X
          aiRandomMovesUsed := 0
          gameActive := true }
      | prevMove :: _ =>
        { s' with
          board := prevMove.board
          currentPlayer := otherPlayer prevMove.player
          aiRandomMovesUsed := prevMove.aiRandomMovesUsed
          gameActive := true }

/-- `moveForward()`: in review mode navigate to the next move (guard:
`this.reviewIndex < this.allMoves.length - 1`); in normal mode redo: dequeue
the front record, restore board / player / counter from it, push it back
onto the stack and `allMoves`, and deactivate the game if the restored board
is terminal. -/
def moveForward (s : GameState) : GameState :=
  if s.reviewMode then
    if s.reviewIndex < (s.allMoves.length : Int) - 1 then
      displayReviewMove { s with reviewIndex := s.reviewIndex + 1 }
    else s
  else
    match s.redoHistory with
    | [] => s
    | nextMove :: rest =>
      let s' := { s with
        redoHistory := rest
        board := nextMove.board
        currentPlayer := otherPlayer nextMove.player
        aiRandomMovesUsed := nextMove.aiRandomMovesUsed
        moveHistory := nextMove :: s.moveHistory
        allMoves := s.allMoves ++ [nextMove] }
      if checkWinner Player.X s'.board || checkWinner Player.O s'.board
          || s'.board.all fun cell => cell.isSome then
        { s' with gameActive := false }
      else s'

/-- `startReview()`: no-op when nothing was played; else enter review mode
at index `-1` with an empty display board. -/
def startReview (s : GameState) : GameState :=
  if s.allMoves.length == 0 then s
  else
    { s with
      reviewMode := true
      reviewIndex := -1
      board := emptyBoard }

/-- `resetGame()`: reset every state field (the difficulty is kept). -/
def resetGame (s : GameState) : GameState where
  board := emptyBoard
  currentPlayer := Player.X
  gameActive := true
  difficulty := s.difficulty
  moveHistory := []
  redoHistory := []
  reviewMode := false
  allMoves := []
  reviewIndex := -1
  aiRandomMovesUsed := 0

/-- `setDifficulty(e)`: switch difficulty and reset. -/
def setDifficulty (s : GameState) (difficulty : Difficulty) : GameState :=
  resetGame { s with difficulty := difficulty }

/-- Every state the system can reach: the constructor state for an arbitrary
difficulty, followed by any sequence of UI-triggered operations.  The deferred
computer move may fire at any later time (the code never cancels the
timeout), which the separate `computer` step over-approximates. -/
inductive Reach : GameState → Prop where
  | init (d : Difficulty) : Reach (initialState d)
  | click (s : GameState) (i : Nat) : Reach s → Reach (handleCellClick s i)
  | computer (s : GameState) (r : Nat) : Reach s → Reach (computerMove s r)
  | backward (s : GameState) : Reach s → Reach (moveBackward s)
  | forward (s : GameState) : Reach s → Reach (moveForward s)
  | review (s : GameState) : Reach s → Reach (startReview s)
  | reset (s : GameState) : Reach s → Reach (resetGame s)
  | difficulty (s : GameState) (d : Difficulty) : Reach s → Reach (setDifficulty s d)

/-- The full contract of `minimax(board, player)` claimed by the spec:
terminal scoring (human-mark line = -10, automated-mark line = +10, full
board with no winner = score 0 with no index), and on non-terminal boards
the first-encountered empty cell (in ascending index order) whose recursive
score is optimal for the player to move — 'O' maximizing, 'X' minimizing,
with no depth discount. -/
def MinimaxClaim (b : Board) (p : Player) : Prop :=
  (checkWinner Player.X b = true → minimax b p = ⟨none, -10⟩) ∧
  (checkWinner Player.O b = true → minimax b p = ⟨none, 10⟩) ∧
  (checkWinner Player.X b = false → checkWinner Player.O b = false →
    emptyIndices b = [] → minimax b p = ⟨none, 0⟩) ∧
  (checkWinner Player.X b = false → checkWinner Player.O b = false →
    emptyIndices b ≠ [] →
    ∃ i ∈ emptyIndices b,
      minimax b p = ⟨some i, (minimax (b.set i (some p)) (otherPlayer p)).score⟩ ∧
      (∀ j ∈ emptyIndices b,
        (p = Player.O →
          (minimax (b.set j (some p)) (otherPlayer p)).score ≤
            (minimax (b.set i (some p)) (otherPlayer p)).score) ∧
        (p = Player.X →
          (minimax (b.set i (some p)) (otherPlayer p)).score ≤
            (minimax (b.set j (some p)) (otherPlayer p)).score)) ∧
      (∀ j ∈ emptyIndices b, j < i →
        (p = Player.O →
          (minimax (b.set j (some p)) (otherPlayer p)).score <
            (minimax (b.set i (some p)) (otherPlayer p)).score) ∧
        (p = Player.X →
          (minimax (b.set i (some p)) (otherPlayer p)).score <
            (minimax (b.set j (some p)) (otherPlayer p)).score)))

/-- Modelled from the spec (§4.3 difficulty tiers), for the refinement
clause of the claim: Hard always takes the Search Engine's best index;
Medium picks a random empty cell while the budget `randomMovesUsed < 1`
(incrementing it), then uses the Search Engine; Easy is the same with
threshold 2.  The uniform random pick is represented by the same `rand`
oracle used by `chooseMove`. -/
def specDifficultyPolicy (b : Board) (d : Difficulty) (randomMovesUsed rand : Nat) :
    Option Nat × Nat :=
  match d with
  | Difficulty.hard => ((minimax b Player.O).index, randomMovesUsed)
  | Difficulty.medium =>
    if randomMovesUsed < 1 then
      ((emptyIndices b).get? (rand % (emptyIndices b).length), randomMovesUsed + 1)
    else ((minimax b Player.O).index, randomMovesUsed)
  | Difficulty.easy =>
    if randomMovesUsed < 2 then
      ((emptyIndices b).get? (rand % (emptyIndices b).length), randomMovesUsed + 1)
    else ((minimax b Player.O).index, randomMovesUsed)

/-! ## Definitions for claim C1 (hard difficulty never loses)

The key game-specific fact behind C1 is that the empty board is worth at
least a draw to the side to move.  Rather than evaluating the full minimax
tree in the kernel, we check a *draw certificate*: an explicit strategy
tree for 'O' in which 'X' branches over every empty cell while 'O' plays
the single recorded move.  The concrete tree `drawCert` below was computed
offline by a search that tries, at each 'O' turn, the immediate winning
move, then the block, then the remaining cells centre-first; only the
checker and the soundness proof below matter for the theorem. -/

/-- A strategy-tree certificate: at `xnode` the opponent 'X' branches over
all empty cells (children listed in the ascending order of
`emptyIndices`), at `onode m k` the automated 'O' plays cell `m`, and
`stop` claims the position is already decided ('O' won or the board is
full). -/
inductive Cert where
  | stop : Cert
  | xnode : List Cert → Cert
  | onode : Nat → Cert → Cert

mutual

/-- Checks a certificate claiming that, with 'X' to move on `b`, 'X'
cannot force a win. -/
def checkCertX : Nat → Cert → Board → Bool
  | 0, _, _ => false
  | fuel + 1, c, b =>
    if checkWinner Player.X b then false
    else
      match c with
      | Cert.stop => checkWinner Player.O b || b.all fun cell => cell.isSome
      | Cert.xnode cs =>
        match emptyIndices b with
        | [] => false
        | e :: es =>
          cs.length == (e :: es).length &&
            ((e :: es).zip cs).all fun p => checkCertO fuel p.2 (b.set p.1 (some Player.X))
      | Cert.onode _ _ => false

/-- Checks a certificate claiming that, with 'O' to move on `b`, 'O' can
secure at least a draw. -/
def checkCertO : Nat → Cert → Board → Bool
  | 0, _, _ => false
  | fuel + 1, c, b =>
    if checkWinner Player.X b then false
    else
      match c with
      | Cert.stop => checkWinner Player.O b || b.all fun cell => cell.isSome
      | Cert.onode m k =>
        decide (m < b.length) && (b.getD m none).isNone &&
          checkCertX fuel k (b.set m (some Player.O))
      | Cert.xnode _ => false

end

/-- The draw certificate for the empty board (computed offline). -/
def drawCert : Cert :=
  Cert.xnode [Cert.onode 4 (Cert.xnode [Cert.onode 2 (Cert.xnode [Cert.onode 6 (Cert.stop), Cert.onode 6 (Cert.stop), Cert.onode 3 (Cert.xnode [Cert.onode 8 (Cert.xnode [Cert.stop]), Cert.onode 5 (Cert.stop), Cert.onode 5 (Cert.stop)]), Cert.onode 6 (Cert.stop), Cert.onode 6 (Cert.stop)]), Cert.onode 1 (Cert.xnode [Cert.onode 7 (Cert.stop), Cert.onode 7 (Cert.stop), Cert.onode 7 (Cert.stop), Cert.onode 6 (Cert.xnode [Cert.onode 8 (Cert.xnode [Cert.stop]), Cert.onode 8 (Cert.xnode [Cert.stop]), Cert.onode 5 (Cert.xnode [Cert.stop])]), Cert.onode 7 (Cert.stop)]), Cert.onode 6 (Cert.xnode [Cert.onode 2 (Cert.stop), Cert.onode 1 (Cert.xnode [Cert.onode 7 (Cert.stop), Cert.onode 8 (Cert.xnode [Cert.stop]), Cert.onode 7 (Cert.stop)]), Cert.onode 2 (Cert.stop), Cert.onode 2 (Cert.stop), Cert.onode 2 (Cert.stop)]), Cert.onode 2 (Cert.xnode [Cert.onode 6 (Cert.stop), Cert.onode 6 (Cert.stop), Cert.onode 3 (Cert.xnode [Cert.onode 8 (Cert.xnode [Cert.stop]), Cert.onode 8 (Cert.xnode [Cert.stop]), Cert.onode 7 (Cert.xnode [Cert.stop])]), Cert.onode 6 (Cert.stop), Cert.onode 6 (Cert.stop)]), Cert.onode 3 (Cert.xnode [Cert.onode 5 (Cert.stop), Cert.onode 5 (Cert.stop), Cert.onode 2 (Cert.xnode [Cert.onode 8 (Cert.xnode [Cert.stop]), Cert.onode 8 (Cert.xnode [Cert.stop]), Cert.onode 7 (Cert.xnode [Cert.stop])]), Cert.onode 5 (Cert.stop), Cert.onode 5 (Cert.stop)]), Cert.onode 6 (Cert.xnode [Cert.onode 2 (Cert.stop), Cert.onode 1 (Cert.xnode [Cert.onode 8 (Cert.xnode [Cert.stop]), Cert.onode 8 (Cert.xnode [Cert.stop]), Cert.onode 5 (Cert.xnode [Cert.stop])]), Cert.onode 2 (Cert.stop), Cert.onode 2 (Cert.stop), Cert.onode 2 (Cert.stop)]), Cert.onode 1 (Cert.xnode [Cert.onode 7 (Cert.stop), Cert.onode 7 (Cert.stop), Cert.onode 7 (Cert.stop), Cert.onode 7 (Cert.stop), Cert.onode 6 (Cert.xnode [Cert.onode 5 (Cert.xnode [Cert.stop]), Cert.onode 2 (Cert.stop), Cert.onode 2 (Cert.stop)])])]), Cert.onode 4 (Cert.xnode [Cert.onode 2 (Cert.xnode [Cert.onode 6 (Cert.stop), Cert.onode 6 (Cert.stop), Cert.onode 3 (Cert.xnode [Cert.onode 8 (Cert.xnode [Cert.stop]), Cert.onode 5 (Cert.stop), Cert.onode 5 (Cert.stop)]), Cert.onode 6 (Cert.stop), Cert.onode 6 (Cert.stop)]), Cert.onode 0 (Cert.xnode [Cert.onode 8 (Cert.stop), Cert.onode 8 (Cert.stop), Cert.onode 8 (Cert.stop), Cert.onode 8 (Cert.stop), Cert.onode 5 (Cert.xnode [Cert.onode 6 (Cert.xnode [Cert.stop]), Cert.onode 3 (Cert.stop), Cert.onode 3 (Cert.stop)])]), Cert.onode 0 (Cert.xnode [Cert.onode 8 (Cert.stop), Cert.onode 8 (Cert.stop), Cert.onode 8 (Cert.stop), Cert.onode 8 (Cert.stop), Cert.onode 2 (Cert.xnode [Cert.onode 6 (Cert.stop), Cert.onode 7 (Cert.xnode [Cert.stop]), Cert.onode 6 (Cert.stop)])]), Cert.onode 0 (Cert.xnode [Cert.onode 8 (Cert.stop), Cert.onode 8 (Cert.stop), Cert.onode 8 (Cert.stop), Cert.onode 8 (Cert.stop), Cert.onode 2 (Cert.xnode [Cert.onode 6 (Cert.stop), Cert.onode 7 (Cert.xnode [Cert.stop]), Cert.onode 6 (Cert.stop)])]), Cert.onode 0 (Cert.xnode [Cert.onode 8 (Cert.stop), Cert.onode 8 (Cert.stop), Cert.onode 8 (Cert.stop), Cert.onode 8 (Cert.stop), Cert.onode 7 (Cert.xnode [Cert.onode 5 (Cert.xnode [Cert.stop]), Cert.onode 2 (Cert.xnode [Cert.stop]), Cert.onode 2 (Cert.xnode [Cert.stop])])]), Cert.onode 0 (Cert.xnode [Cert.onode 8 (Cert.stop), Cert.onode 8 (Cert.stop), Cert.onode 8 (Cert.stop), Cert.onode 8 (Cert.stop), Cert.onode 6 (Cert.xnode [Cert.onode 3 (Cert.stop), Cert.onode 2 (Cert.stop), Cert.onode 2 (Cert.stop)])]), Cert.onode 0 (Cert.xnode [Cert.onode 5 (Cert.xnode [Cert.onode 6 (Cert.xnode [Cert.stop]), Cert.onode 3 (Cert.stop), Cert.onode 3 (Cert.stop)]), Cert.onode 2 (Cert.xnode [Cert.onode 6 (Cert.stop), Cert.onode 7 (Cert.xnode [Cert.stop]), Cert.onode 6 (Cert.stop)]), Cert.onode 2 (Cert.xnode [Cert.onode 6 (Cert.stop), Cert.onode 7 (Cert.xnode [Cert.stop]), Cert.onode 6 (Cert.stop)]), Cert.onode 7 (Cert.xnode [Cert.onode 5 (Cert.xnode [Cert.stop]), Cert.onode 2 (Cert.xnode [Cert.stop]), Cert.onode 2 (Cert.xnode [Cert.stop])]), Cert.onode 6 (Cert.xnode [Cert.onode 3 (Cert.stop), Cert.onode 2 (Cert.stop), Cert.onode 2 (Cert.stop)])])]), Cert.onode 4 (Cert.xnode [Cert.onode 1 (Cert.xnode [Cert.onode 7 (Cert.stop), Cert.onode 7 (Cert.stop), Cert.onode 7 (Cert.stop), Cert.onode 6 (Cert.xnode [Cert.onode 8 (Cert.xnode [Cert.stop]), Cert.onode 8 (Cert.xnode [Cert.stop]), Cert.onode 5 (Cert.xnode [Cert.stop])]), Cert.onode 7 (Cert.stop)]), Cert.onode 0 (Cert.xnode [Cert.onode 8 (Cert.stop), Cert.onode 8 (Cert.stop), Cert.onode 8 (Cert.stop), Cert.onode 8 (Cert.stop), Cert.onode 5 (Cert.xnode [Cert.onode 6 (Cert.xnode [Cert.stop]), Cert.onode 3 (Cert.stop), Cert.onode 3 (Cert.stop)])]), Cert.onode 0 (Cert.xnode [Cert.onode 8 (Cert.stop), Cert.onode 8 (Cert.stop), Cert.onode 8 (Cert.stop), Cert.onode 8 (Cert.stop), Cert.onode 5 (Cert.xnode [Cert.onode 6 (Cert.xnode [Cert.stop]), Cert.onode 7 (Cert.xnode [Cert.stop]), Cert.onode 6 (Cert.xnode [Cert.stop])])]), Cert.onode 8 (Cert.xnode [Cert.onode 1 (Cert.xnode [Cert.onode 7 (Cert.stop), Cert.onode 7 (Cert.stop), Cert.onode 6 (Cert.xnode [Cert.stop])]), Cert.onode 0 (Cert.stop), Cert.onode 0 (Cert.stop), Cert.onode 0 (Cert.stop), Cert.onode 0 (Cert.stop)]), Cert.onode 1 (Cert.xnode [Cert.onode 7 (Cert.stop), Cert.onode 7 (Cert.stop), Cert.onode 7 (Cert.stop), Cert.onode 8 (Cert.xnode [Cert.onode 3 (Cert.xnode [Cert.stop]), Cert.onode 0 (Cert.stop), Cert.onode 0 (Cert.stop)]), Cert.onode 7 (Cert.stop)]), Cert.onode 6 (Cert.xnode [Cert.onode 1 (Cert.xnode [Cert.onode 8 (Cert.xnode [Cert.stop]), Cert.onode 8 (Cert.xnode [Cert.stop]), Cert.onode 5 (Cert.xnode [Cert.stop])]), Cert.onode 0 (Cert.xnode [Cert.onode 8 (Cert.stop), Cert.onode 3 (Cert.stop), Cert.onode 3 (Cert.stop)]), Cert.onode 0 (Cert.xnode [Cert.onode 8 (Cert.stop), Cert.onode 8 (Cert.stop), Cert.onode 5 (Cert.xnode [Cert.stop])]), Cert.onode 8 (Cert.xnode [Cert.onode 1 (Cert.xnode [Cert.stop]), Cert.onode 0 (Cert.stop), Cert.onode 0 (Cert.stop)]), Cert.onode 5 (Cert.xnode [Cert.onode 3 (Cert.stop), Cert.onode 3 (Cert.stop), Cert.onode 0 (Cert.xnode [Cert.stop])])]), Cert.onode 5 (Cert.xnode [Cert.onode 3 (Cert.stop), Cert.onode 3 (Cert.stop), Cert.onode 0 (Cert.xnode [Cert.onode 6 (Cert.xnode [Cert.stop]), Cert.onode 7 (Cert.xnode [Cert.stop]), Cert.onode 6 (Cert.xnode [Cert.stop])]), Cert.onode 3 (Cert.stop), Cert.onode 3 (Cert.stop)])]), Cert.onode 4 (Cert.xnode [Cert.onode 6 (Cert.xnode [Cert.onode 2 (Cert.stop), Cert.onode 1 (Cert.xnode [Cert.onode 7 (Cert.stop), Cert.onode 8 (Cert.xnode [Cert.stop]), Cert.onode 7 (Cert.stop)]), Cert.onode 2 (Cert.stop), Cert.onode 2 (Cert.stop), Cert.onode 2 (Cert.stop)]), Cert.onode 0 (Cert.xnode [Cert.onode 8 (Cert.stop), Cert.onode 8 (Cert.stop), Cert.onode 8 (Cert.stop), Cert.onode 8 (Cert.stop), Cert.onode 2 (Cert.xnode [Cert.onode 6 (Cert.stop), Cert.onode 7 (Cert.xnode [Cert.stop]), Cert.onode 6 (Cert.stop)])]), Cert.onode 0 (Cert.xnode [Cert.onode 8 (Cert.stop), Cert.onode 8 (Cert.stop), Cert.onode 8 (Cert.stop), Cert.onode 8 (Cert.stop), Cert.onode 5 (Cert.xnode [Cert.onode 6 (Cert.xnode [Cert.stop]), Cert.onode 7 (Cert.xnode [Cert.stop]), Cert.onode 6 (Cert.xnode [Cert.stop])])]), Cert.onode 0 (Cert.xnode [Cert.onode 8 (Cert.stop), Cert.onode 8 (Cert.stop), Cert.onode 8 (Cert.stop), Cert.onode 8 (Cert.stop), Cert.onode 2 (Cert.xnode [Cert.onode 6 (Cert.stop), Cert.onode 1 (Cert.stop), Cert.onode 1 (Cert.stop)])]), Cert.onode 0 (Cert.xnode [Cert.onode 8 (Cert.stop), Cert.onode 8 (Cert.stop), Cert.onode 8 (Cert.stop), Cert.onode 8 (Cert.stop), Cert.onode 7 (Cert.xnode [Cert.onode 2 (Cert.xnode [Cert.stop]), Cert.onode 1 (Cert.stop), Cert.onode 1 (Cert.stop)])]), Cert.onode 0 (Cert.xnode [Cert.onode 8 (Cert.stop), Cert.onode 8 (Cert.stop), Cert.onode 8 (Cert.stop), Cert.onode 8 (Cert.stop), Cert.onode 6 (Cert.xnode [Cert.onode 2 (Cert.stop), Cert.onode 5 (Cert.xnode [Cert.stop]), Cert.onode 2 (Cert.stop)])]), Cert.onode 0 (Cert.xnode [Cert.onode 2 (Cert.xnode [Cert.onode 6 (Cert.stop), Cert.onode 7 (Cert.xnode [Cert.stop]), Cert.onode 6 (Cert.stop)]), Cert.onode 5 (Cert.xnode [Cert.onode 6 (Cert.xnode [Cert.stop]), Cert.onode 7 (Cert.xnode [Cert.stop]), Cert.onode 6 (Cert.xnode [Cert.stop])]), Cert.onode 2 (Cert.xnode [Cert.onode 6 (Cert.stop), Cert.onode 1 (Cert.stop), Cert.onode 1 (Cert.stop)]), Cert.onode 7 (Cert.xnode [Cert.onode 2 (Cert.xnode [Cert.stop]), Cert.onode 1 (Cert.stop), Cert.onode 1 (Cert.stop)]), Cert.onode 6 (Cert.xnode [Cert.onode 2 (Cert.stop), Cert.onode 5 (Cert.xnode [Cert.stop]), Cert.onode 2 (Cert.stop)])])]), Cert.onode 0 (Cert.xnode [Cert.onode 7 (Cert.xnode [Cert.onode 6 (Cert.xnode [Cert.onode 8 (Cert.stop), Cert.onode 3 (Cert.stop), Cert.onode 3 (Cert.stop)]), Cert.onode 5 (Cert.xnode [Cert.onode 6 (Cert.xnode [Cert.stop]), Cert.onode 2 (Cert.xnode [Cert.stop]), Cert.onode 2 (Cert.xnode [Cert.stop])]), Cert.onode 3 (Cert.xnode [Cert.onode 6 (Cert.stop), Cert.onode 2 (Cert.xnode [Cert.stop]), Cert.onode 6 (Cert.stop)]), Cert.onode 2 (Cert.xnode [Cert.onode 5 (Cert.xnode [Cert.stop]), Cert.onode 3 (Cert.xnode [Cert.stop]), Cert.onode 3 (Cert.xnode [Cert.stop])]), Cert.onode 2 (Cert.xnode [Cert.onode 5 (Cert.xnode [Cert.stop]), Cert.onode 3 (Cert.xnode [Cert.stop]), Cert.onode 3 (Cert.xnode [Cert.stop])])]), Cert.onode 6 (Cert.xnode [Cert.onode 3 (Cert.stop), Cert.onode 5 (Cert.xnode [Cert.onode 7 (Cert.xnode [Cert.stop]), Cert.onode 1 (Cert.xnode [Cert.stop]), Cert.onode 1 (Cert.xnode [Cert.stop])]), Cert.onode 3 (Cert.stop), Cert.onode 3 (Cert.stop), Cert.onode 3 (Cert.stop)]), Cert.onode 5 (Cert.xnode [Cert.onode 7 (Cert.xnode [Cert.onode 6 (Cert.xnode [Cert.stop]), Cert.onode 2 (Cert.xnode [Cert.stop]), Cert.onode 2 (Cert.xnode [Cert.stop])]), Cert.onode 6 (Cert.xnode [Cert.onode 7 (Cert.xnode [Cert.stop]), Cert.onode 1 (Cert.xnode [Cert.stop]), Cert.onode 1 (Cert.xnode [Cert.stop])]), Cert.onode 2 (Cert.xnode [Cert.onode 8 (Cert.stop), Cert.onode 1 (Cert.stop), Cert.onode 1 (Cert.stop)]), Cert.onode 1 (Cert.xnode [Cert.onode 6 (Cert.xnode [Cert.stop]), Cert.onode 2 (Cert.stop), Cert.onode 2 (Cert.stop)]), Cert.onode 2 (Cert.xnode [Cert.onode 7 (Cert.xnode [Cert.stop]), Cert.onode 1 (Cert.stop), Cert.onode 1 (Cert.stop)])]), Cert.onode 3 (Cert.xnode [Cert.onode 6 (Cert.stop), Cert.onode 6 (Cert.stop), Cert.onode 2 (Cert.xnode [Cert.onode 7 (Cert.xnode [Cert.stop]), Cert.onode 1 (Cert.stop), Cert.onode 1 (Cert.stop)]), Cert.onode 6 (Cert.stop), Cert.onode 6 (Cert.stop)]), Cert.onode 2 (Cert.xnode [Cert.onode 7 (Cert.xnode [Cert.onode 5 (Cert.xnode [Cert.stop]), Cert.onode 3 (Cert.xnode [Cert.stop]), Cert.onode 3 (Cert.xnode [Cert.stop])]), Cert.onode 1 (Cert.stop), Cert.onode 1 (Cert.stop), Cert.onode 1 (Cert.stop), Cert.onode 1 (Cert.stop)]), Cert.onode 1 (Cert.xnode [Cert.onode 6 (Cert.xnode [Cert.onode 5 (Cert.xnode [Cert.stop]), Cert.onode 3 (Cert.stop), Cert.onode 3 (Cert.stop)]), Cert.onode 2 (Cert.stop), Cert.onode 2 (Cert.stop), Cert.onode 2 (Cert.stop), Cert.onode 2 (Cert.stop)]), Cert.onode 2 (Cert.xnode [Cert.onode 7 (Cert.xnode [Cert.onode 5 (Cert.xnode [Cert.stop]), Cert.onode 3 (Cert.xnode [Cert.stop]), Cert.onode 3 (Cert.xnode [Cert.stop])]), Cert.onode 1 (Cert.stop), Cert.onode 1 (Cert.stop), Cert.onode 1 (Cert.stop), Cert.onode 1 (Cert.stop)])]), Cert.onode 4 (Cert.xnode [Cert.onode 2 (Cert.xnode [Cert.onode 6 (Cert.stop), Cert.onode 6 (Cert.stop), Cert.onode 3 (Cert.xnode [Cert.onode 8 (Cert.xnode [Cert.stop]), Cert.onode 8 (Cert.xnode [Cert.stop]), Cert.onode 7 (Cert.xnode [Cert.stop])]), Cert.onode 6 (Cert.stop), Cert.onode 6 (Cert.stop)]), Cert.onode 0 (Cert.xnode [Cert.onode 8 (Cert.stop), Cert.onode 8 (Cert.stop), Cert.onode 8 (Cert.stop), Cert.onode 8 (Cert.stop), Cert.onode 2 (Cert.xnode [Cert.onode 6 (Cert.stop), Cert.onode 7 (Cert.xnode [Cert.stop]), Cert.onode 6 (Cert.stop)])]), Cert.onode 8 (Cert.xnode [Cert.onode 1 (Cert.xnode [Cert.onode 7 (Cert.stop), Cert.onode 7 (Cert.stop), Cert.onode 6 (Cert.xnode [Cert.stop])]), Cert.onode 0 (Cert.stop), Cert.onode 0 (Cert.stop), Cert.onode 0 (Cert.stop), Cert.onode 0 (Cert.stop)]), Cert.onode 0 (Cert.xnode [Cert.onode 8 (Cert.stop), Cert.onode 8 (Cert.stop), Cert.onode 8 (Cert.stop), Cert.onode 8 (Cert.stop), Cert.onode 2 (Cert.xnode [Cert.onode 6 (Cert.stop), Cert.onode 1 (Cert.stop), Cert.onode 1 (Cert.stop)])]), Cert.onode 2 (Cert.xnode [Cert.onode 3 (Cert.xnode [Cert.onode 8 (Cert.xnode [Cert.stop]), Cert.onode 8 (Cert.xnode [Cert.stop]), Cert.onode 7 (Cert.xnode [Cert.stop])]), Cert.onode 0 (Cert.xnode [Cert.onode 8 (Cert.stop), Cert.onode 8 (Cert.stop), Cert.onode 7 (Cert.xnode [Cert.stop])]), Cert.onode 0 (Cert.xnode [Cert.onode 8 (Cert.stop), Cert.onode 1 (Cert.stop), Cert.onode 1 (Cert.stop)]), Cert.onode 8 (Cert.xnode [Cert.onode 3 (Cert.xnode [Cert.stop]), Cert.onode 0 (Cert.stop), Cert.onode 0 (Cert.stop)]), Cert.onode 7 (Cert.xnode [Cert.onode 1 (Cert.stop), Cert.onode 0 (Cert.xnode [Cert.stop]), Cert.onode 1 (Cert.stop)])]), Cert.onode 2 (Cert.xnode [Cert.onode 6 (Cert.stop), Cert.onode 6 (Cert.stop), Cert.onode 6 (Cert.stop), Cert.onode 8 (Cert.xnode [Cert.onode 3 (Cert.xnode [Cert.stop]), Cert.onode 0 (Cert.stop), Cert.onode 0 (Cert.stop)]), Cert.onode 6 (Cert.stop)]), Cert.onode 2 (Cert.xnode [Cert.onode 6 (Cert.stop), Cert.onode 6 (Cert.stop), Cert.onode 6 (Cert.stop), Cert.onode 7 (Cert.xnode [Cert.onode 1 (Cert.stop), Cert.onode 0 (Cert.xnode [Cert.stop]), Cert.onode 1 (Cert.stop)]), Cert.onode 6 (Cert.stop)])]), Cert.onode 4 (Cert.xnode [Cert.onode 3 (Cert.xnode [Cert.onode 5 (Cert.stop), Cert.onode 5 (Cert.stop), Cert.onode 2 (Cert.xnode [Cert.onode 8 (Cert.xnode [Cert.stop]), Cert.onode 8 (Cert.xnode [Cert.stop]), Cert.onode 7 (Cert.xnode [Cert.stop])]), Cert.onode 5 (Cert.stop), Cert.onode 5 (Cert.stop)]), Cert.onode 0 (Cert.xnode [Cert.onode 8 (Cert.stop), Cert.onode 8 (Cert.stop), Cert.onode 8 (Cert.stop), Cert.onode 8 (Cert.stop), Cert.onode 7 (Cert.xnode [Cert.onode 5 (Cert.xnode [Cert.stop]), Cert.onode 2 (Cert.xnode [Cert.stop]), Cert.onode 2 (Cert.xnode [Cert.stop])])]), Cert.onode 1 (Cert.xnode [Cert.onode 7 (Cert.stop), Cert.onode 7 (Cert.stop), Cert.onode 7 (Cert.stop), Cert.onode 8 (Cert.xnode [Cert.onode 3 (Cert.xnode [Cert.stop]), Cert.onode 0 (Cert.stop), Cert.onode 0 (Cert.stop)]), Cert.onode 7 (Cert.stop)]), Cert.onode 0 (Cert.xnode [Cert.onode 8 (Cert.stop), Cert.onode 8 (Cert.stop), Cert.onode 8 (Cert.stop), Cert.onode 8 (Cert.stop), Cert.onode 7 (Cert.xnode [Cert.onode 2 (Cert.xnode [Cert.stop]), Cert.onode 1 (Cert.stop), Cert.onode 1 (Cert.stop)])]), Cert.onode 2 (Cert.xnode [Cert.onode 3 (Cert.xnode [Cert.onode 8 (Cert.xnode [Cert.stop]), Cert.onode 8 (Cert.xnode [Cert.stop]), Cert.onode 7 (Cert.xnode [Cert.stop])]), Cert.onode 0 (Cert.xnode [Cert.onode 8 (Cert.stop), Cert.onode 8 (Cert.stop), Cert.onode 7 (Cert.xnode [Cert.stop])]), Cert.onode 0 (Cert.xnode [Cert.onode 8 (Cert.stop), Cert.onode 1 (Cert.stop), Cert.onode 1 (Cert.stop)]), Cert.onode 8 (Cert.xnode [Cert.onode 3 (Cert.xnode [Cert.stop]), Cert.onode 0 (Cert.stop), Cert.onode 0 (Cert.stop)]), Cert.onode 7 (Cert.xnode [Cert.onode 1 (Cert.stop), Cert.onode 0 (Cert.xnode [Cert.stop]), Cert.onode 1 (Cert.stop)])]), Cert.onode 8 (Cert.xnode [Cert.onode 3 (Cert.xnode [Cert.onode 5 (Cert.stop), Cert.onode 5 (Cert.stop), Cert.onode 2 (Cert.xnode [Cert.stop])]), Cert.onode 0 (Cert.stop), Cert.onode 0 (Cert.stop), Cert.onode 0 (Cert.stop), Cert.onode 0 (Cert.stop)]), Cert.onode 7 (Cert.xnode [Cert.onode 1 (Cert.stop), Cert.onode 0 (Cert.xnode [Cert.onode 5 (Cert.xnode [Cert.stop]), Cert.onode 2 (Cert.xnode [Cert.stop]), Cert.onode 2 (Cert.xnode [Cert.stop])]), Cert.onode 1 (Cert.stop), Cert.onode 1 (Cert.stop), Cert.onode 1 (Cert.stop)])]), Cert.onode 4 (Cert.xnode [Cert.onode 6 (Cert.xnode [Cert.onode 2 (Cert.stop), Cert.onode 1 (Cert.xnode [Cert.onode 8 (Cert.xnode [Cert.stop]), Cert.onode 8 (Cert.xnode [Cert.stop]), Cert.onode 5 (Cert.xnode [Cert.stop])]), Cert.onode 2 (Cert.stop), Cert.onode 2 (Cert.stop), Cert.onode 2 (Cert.stop)]), Cert.onode 0 (Cert.xnode [Cert.onode 8 (Cert.stop), Cert.onode 8 (Cert.stop), Cert.onode 8 (Cert.stop), Cert.onode 8 (Cert.stop), Cert.onode 6 (Cert.xnode [Cert.onode 3 (Cert.stop), Cert.onode 2 (Cert.stop), Cert.onode 2 (Cert.stop)])]), Cert.onode 6 (Cert.xnode [Cert.onode 1 (Cert.xnode [Cert.onode 8 (Cert.xnode [Cert.stop]), Cert.onode 8 (Cert.xnode [Cert.stop]), Cert.onode 5 (Cert.xnode [Cert.stop])]), Cert.onode 0 (Cert.xnode [Cert.onode 8 (Cert.stop), Cert.onode 3 (Cert.stop), Cert.onode 3 (Cert.stop)]), Cert.onode 0 (Cert.xnode [Cert.onode 8 (Cert.stop), Cert.onode 8 (Cert.stop), Cert.onode 5 (Cert.xnode [Cert.stop])]), Cert.onode 8 (Cert.xnode [Cert.onode 1 (Cert.xnode [Cert.stop]), Cert.onode 0 (Cert.stop), Cert.onode 0 (Cert.stop)]), Cert.onode 5 (Cert.xnode [Cert.onode 3 (Cert.stop), Cert.onode 3 (Cert.stop), Cert.onode 0 (Cert.xnode [Cert.stop])])]), Cert.onode 0 (Cert.xnode [Cert.onode 8 (Cert.stop), Cert.onode 8 (Cert.stop), Cert.onode 8 (Cert.stop), Cert.onode 8 (Cert.stop), Cert.onode 6 (Cert.xnode [Cert.onode 2 (Cert.stop), Cert.onode 5 (Cert.xnode [Cert.stop]), Cert.onode 2 (Cert.stop)])]), Cert.onode 2 (Cert.xnode [Cert.onode 6 (Cert.stop), Cert.onode 6 (Cert.stop), Cert.onode 6 (Cert.stop), Cert.onode 8 (Cert.xnode [Cert.onode 3 (Cert.xnode [Cert.stop]), Cert.onode 0 (Cert.stop), Cert.onode 0 (Cert.stop)]), Cert.onode 6 (Cert.stop)]), Cert.onode 8 (Cert.xnode [Cert.onode 3 (Cert.xnode [Cert.onode 5 (Cert.stop), Cert.onode 5 (Cert.stop), Cert.onode 2 (Cert.xnode [Cert.stop])]), Cert.onode 0 (Cert.stop), Cert.onode 0 (Cert.stop), Cert.onode 0 (Cert.stop), Cert.onode 0 (Cert.stop)]), Cert.onode 6 (Cert.xnode [Cert.onode 2 (Cert.stop), Cert.onode 2 (Cert.stop), Cert.onode 5 (Cert.xnode [Cert.onode 3 (Cert.stop), Cert.onode 3 (Cert.stop), Cert.onode 0 (Cert.xnode [Cert.stop])]), Cert.onode 2 (Cert.stop), Cert.onode 2 (Cert.stop)])]), Cert.onode 4 (Cert.xnode [Cert.onode 1 (Cert.xnode [Cert.onode 7 (Cert.stop), Cert.onode 7 (Cert.stop), Cert.onode 7 (Cert.stop), Cert.onode 7 (Cert.stop), Cert.onode 6 (Cert.xnode [Cert.onode 5 (Cert.xnode [Cert.stop]), Cert.onode 2 (Cert.stop), Cert.onode 2 (Cert.stop)])]), Cert.onode 0 (Cert.xnode [Cert.onode 5 (Cert.xnode [Cert.onode 6 (Cert.xnode [Cert.stop]), Cert.onode 3 (Cert.stop), Cert.onode 3 (Cert.stop)]), Cert.onode 2 (Cert.xnode [Cert.onode 6 (Cert.stop), Cert.onode 7 (Cert.xnode [Cert.stop]), Cert.onode 6 (Cert.stop)]), Cert.onode 2 (Cert.xnode [Cert.onode 6 (Cert.stop), Cert.onode 7 (Cert.xnode [Cert.stop]), Cert.onode 6 (Cert.stop)]), Cert.onode 7 (Cert.xnode [Cert.onode 5 (Cert.xnode [Cert.stop]), Cert.onode 2 (Cert.xnode [Cert.stop]), Cert.onode 2 (Cert.xnode [Cert.stop])]), Cert.onode 6 (Cert.xnode [Cert.onode 3 (Cert.stop), Cert.onode 2 (Cert.stop), Cert.onode 2 (Cert.stop)])]), Cert.onode 5 (Cert.xnode [Cert.onode 3 (Cert.stop), Cert.onode 3 (Cert.stop), Cert.onode 0 (Cert.xnode [Cert.onode 6 (Cert.xnode [Cert.stop]), Cert.onode 7 (Cert.xnode [Cert.stop]), Cert.onode 6 (Cert.xnode [Cert.stop])]), Cert.onode 3 (Cert.stop), Cert.onode 3 (Cert.stop)]), Cert.onode 0 (Cert.xnode [Cert.onode 2 (Cert.xnode [Cert.onode 6 (Cert.stop), Cert.onode 7 (Cert.xnode [Cert.stop]), Cert.onode 6 (Cert.stop)]), Cert.onode 5 (Cert.xnode [Cert.onode 6 (Cert.xnode [Cert.stop]), Cert.onode 7 (Cert.xnode [Cert.stop]), Cert.onode 6 (Cert.xnode [Cert.stop])]), Cert.onode 2 (Cert.xnode [Cert.onode 6 (Cert.stop), Cert.onode 1 (Cert.stop), Cert.onode 1 (Cert.stop)]), Cert.onode 7 (Cert.xnode [Cert.onode 2 (Cert.xnode [Cert.stop]), Cert.onode 1 (Cert.stop), Cert.onode 1 (Cert.stop)]), Cert.onode 6 (Cert.xnode [Cert.onode 2 (Cert.stop), Cert.onode 5 (Cert.xnode [Cert.stop]), Cert.onode 2 (Cert.stop)])]), Cert.onode 2 (Cert.xnode [Cert.onode 6 (Cert.stop), Cert.onode 6 (Cert.stop), Cert.onode 6 (Cert.stop), Cert.onode 7 (Cert.xnode [Cert.onode 1 (Cert.stop), Cert.onode 0 (Cert.xnode [Cert.stop]), Cert.onode 1 (Cert.stop)]), Cert.onode 6 (Cert.stop)]), Cert.onode 7 (Cert.xnode [Cert.onode 1 (Cert.stop), Cert.onode 0 (Cert.xnode [Cert.onode 5 (Cert.xnode [Cert.stop]), Cert.onode 2 (Cert.xnode [Cert.stop]), Cert.onode 2 (Cert.xnode [Cert.stop])]), Cert.onode 1 (Cert.stop), Cert.onode 1 (Cert.stop), Cert.onode 1 (Cert.stop)]), Cert.onode 6 (Cert.xnode [Cert.onode 2 (Cert.stop), Cert.onode 2 (Cert.stop), Cert.onode 5 (Cert.xnode [Cert.onode 3 (Cert.stop), Cert.onode 3 (Cert.stop), Cert.onode 0 (Cert.xnode [Cert.stop])]), Cert.onode 2 (Cert.stop), Cert.onode 2 (Cert.stop)])])]

/-- The board after the hard-difficulty opponent moves on `b`: the cell
selected by `computerMove`'s logic (`chooseMove` with difficulty `hard`;
the random oracle and budget are irrelevant on hard) is filled with 'O'.
When `chooseMove` yields no index (terminal board, unreachable in play)
the board is unchanged, mirroring `computerMove`. -/
def oMoveHard (b : Board) : Board :=
  match (chooseMove b Difficulty.hard 0 0).1 with
  | some m => b.set m (some Player.O)
  | none => b

/-- The positions arising in a hard-difficulty game in which the human 'X'
moves first playing arbitrary legal moves and the opponent answers with
`computerMove`'s hard-difficulty logic.  The second component is the side
to move.  Moves happen only while the game is undecided (no winner), as
enforced by `makeMove` deactivating the game. -/
inductive HardReach : Board → Player → Prop where
  | init : HardReach emptyBoard Player.X
  | xstep (b : Board) (i : Nat) : HardReach b Player.X →
      checkWinner Player.X b = false → checkWinner Player.O b = false →
      i ∈ emptyIndices b →
      HardReach (b.set i (some Player.X)) Player.O
  | ostep (b : Board) : HardReach b Player.O →
      checkWinner Player.X b = false → checkWinner Player.O b = false →
      emptyIndices b ≠ [] →
      HardReach (oMoveHard b) Player.X

/-- The boards reachable from the empty board by alternating legal moves:
each move fills an empty in-range cell, marks alternate, and play stops as
soon as a mark completes a line (as `makeMove` deactivates the game). -/
inductive PlayReach : Board → Player → Prop where
  | init (p : Player) : PlayReach emptyBoard p
  | step (b : Board) (p : Player) (i : Nat) : PlayReach b p →
      checkWinner Player.X b = false → checkWinner Player.O b = false →
      i ∈ emptyIndices b →
      PlayReach (b.set i (some p)) (otherPlayer p)

/-! ## Basic board lemmas -/

lemma getD_set (b : Board) (i j : Nat) (v : Cell) :
    (b.set i v).getD j none = if i = j ∧ i < b.length then v else b.getD j none := by
  rw [List.getD_eq_getElem?_getD, List.getD_eq_getElem?_getD, List.getElem?_set]
  by_cases hij : i = j
  · subst hij
    by_cases hlen : i < b.length
    · simp [hlen]
    · simp only [if_pos rfl, if_neg hlen, hlen, and_false, if_false]
      rw [List.getElem?_eq_none (Nat.le_of_not_lt hlen)]
      simp
  · simp [hij]

lemma mem_emptyIndices {b : Board} {i : Nat} :
    i ∈ emptyIndices b ↔ i < b.length ∧ b.getD i none = none := by
  simp [emptyIndices, List.mem_filter, List.mem_range, Option.isNone_iff_eq_none]

lemma emptyIndices_nodup (b : Board) : (emptyIndices b).Nodup :=
  (List.nodup_range _).filter _

lemma emptyIndices_sorted (b : Board) : List.Pairwise (· < ·) (emptyIndices b) :=
  List.Pairwise.sublist (List.filter_sublist _) (List.pairwise_lt_range _)

lemma emptyIndices_length_le (b : Board) : (emptyIndices b).length ≤ b.length := by
  calc (emptyIndices b).length ≤ (List.range b.length).length :=
        (List.filter_sublist _).length_le
    _ = b.length := List.length_range _

lemma emptyIndices_set {b : Board} {i : Nat} (hmem : i ∈ emptyIndices b) (p : Player) :
    emptyIndices (b.set i (some p)) = (emptyIndices b).filter fun j => j != i := by
  obtain ⟨hi, _⟩ := mem_emptyIndices.1 hmem
  unfold emptyIndices
  rw [List.length_set, List.filter_filter]
  apply List.filter_congr
  intro j hj
  rw [getD_set b i j (some p)]
  by_cases hij : i = j
  · subst hij
    simp [hi]
  · have : j ≠ i := fun h => hij h.symm
    simp [hij, hi, this]

lemma emptyIndices_set_length {b : Board} {i : Nat} (hmem : i ∈ emptyIndices b) (p : Player) :
    (emptyIndices (b.set i (some p))).length = (emptyIndices b).length - 1 := by
  rw [emptyIndices_set hmem p, ← List.Nodup.erase_eq_filter (emptyIndices_nodup b) i,
    List.length_erase_of_mem hmem]

lemma length_set (b : Board) (i : Nat) (v : Cell) : (b.set i v).length = b.length :=
  List.length_set b i v

lemma checkWinner_iff {q : Player} {b : Board} :
    checkWinner q b = true ↔
      ∃ pat ∈ winPatterns, ∀ j ∈ pat, b.getD j none = some q := by
  simp [checkWinner, List.any_eq_true, List.all_eq_true]

/-- Placing mark `p` on an empty cell neither creates nor destroys a
completed line for the other mark `q`. -/
lemma checkWinner_set_of_ne {q p : Player} (hqp : q ≠ p) {b : Board} {i : Nat}
    (hv : b.getD i none = none) :
    checkWinner q (b.set i (some p)) = checkWinner q b := by
  have hcell : ∀ j, ((b.set i (some p)).getD j none = some q) ↔ (b.getD j none = some q) := by
    intro j
    rw [getD_set b i j (some p)]
    by_cases hc : i = j ∧ i < b.length
    · rw [if_pos hc]
      obtain ⟨hij, _⟩ := hc
      subst hij
      rw [hv]
      constructor
      · intro h
        exact absurd (Option.some.inj h) (fun hh => hqp hh.symm)
      · intro h
        exact absurd h (by simp)
    · rw [if_neg hc]
  rw [Bool.eq_iff_iff, checkWinner_iff, checkWinner_iff]
  constructor
  · rintro ⟨pat, hpat, hall⟩
    exact ⟨pat, hpat, fun j hj => (hcell j).1 (hall j hj)⟩
  · rintro ⟨pat, hpat, hall⟩
    exact ⟨pat, hpat, fun j hj => (hcell j).2 (hall j hj)⟩

/-! ## Unfolding and fuel-independence of minimax -/

lemma minimaxF_win_X {fuel : Nat} {b : Board} {p : Player}
    (h : checkWinner Player.X b = true) :
    minimaxF (fuel + 1) b p = ⟨none, -10⟩ := by
  simp [minimaxF, h]

lemma minimaxF_win_O {fuel : Nat} {b : Board} {p : Player}
    (hx : checkWinner Player.X b = false) (ho : checkWinner Player.O b = true) :
    minimaxF (fuel + 1) b p = ⟨none, 10⟩ := by
  simp [minimaxF, hx, ho]

lemma minimaxF_draw {fuel : Nat} {b : Board} {p : Player}
    (hx : checkWinner Player.X b = false) (ho : checkWinner Player.O b = false)
    (hE : emptyIndices b = []) :
    minimaxF (fuel + 1) b p = ⟨none, 0⟩ := by
  simp [minimaxF, hx, ho, hE]

lemma minimaxF_cons_O {fuel : Nat} {b : Board} {e : Nat} {es : List Nat}
    (hx : checkWinner Player.X b = false) (ho : checkWinner Player.O b = false)
    (hE : emptyIndices b = e :: es) :
    minimaxF (fuel + 1) b Player.O =
      (es.map fun idx =>
          (⟨some idx, (minimaxF fuel (b.set idx (some Player.O)) Player.X).score⟩ : MMResult)).foldl
        (fun acc x => if acc.score < x.score then x else acc)
        ⟨some e, (minimaxF fuel (b.set e (some Player.O)) Player.X).score⟩ := by
  simp [minimaxF, hx, ho, hE, otherPlayer]

lemma minimaxF_cons_X {fuel : Nat} {b : Board} {e : Nat} {es : List Nat}
    (hx : checkWinner Player.X b = false) (ho : checkWinner Player.O b = false)
    (hE : emptyIndices b = e :: es) :
    minimaxF (fuel + 1) b Player.X =
      (es.map fun idx =>
          (⟨some idx, (minimaxF fuel (b.set idx (some Player.X)) Player.O).score⟩ : MMResult)).foldl
        (fun acc x => if x.score < acc.score then x else acc)
        ⟨some e, (minimaxF fuel (b.set e (some Player.X)) Player.O).score⟩ := by
  simp [minimaxF, hx, ho, hE, otherPlayer]

lemma emptyIndices_set_length_of_cons {b : Board} {e : Nat} {es : List Nat}
    (hE : emptyIndices b = e :: es) {idx : Nat} (hidx : idx ∈ emptyIndices b) (p : Player) :
    (emptyIndices (b.set idx (some p))).length = es.length := by
  rw [emptyIndices_set_length hidx p, hE]
  rfl

lemma minimaxF_fuel_congr : ∀ (f₁ : Nat) {f₂ : Nat} (b : Board) (p : Player),
    (emptyIndices b).length < f₁ → (emptyIndices b).length < f₂ →
    minimaxF f₁ b p = minimaxF f₂ b p := by
  intro f₁
  induction f₁ with
  | zero =>
    intro f₂ b p h₁ _
    exact absurd h₁ (Nat.not_lt_zero _)
  | succ n ih =>
    intro f₂ b p h₁ h₂
    match f₂, h₂ with
    | c + 1, h₂ =>
      by_cases hx : checkWinner Player.X b = true
      · rw [minimaxF_win_X hx, minimaxF_win_X hx]
      rw [Bool.not_eq_true] at hx
      by_cases ho : checkWinner Player.O b = true
      · rw [minimaxF_win_O hx ho, minimaxF_win_O hx ho]
      rw [Bool.not_eq_true] at ho
      cases hE : emptyIndices b with
      | nil => rw [minimaxF_draw hx ho hE, minimaxF_draw hx ho hE]
      | cons e es =>
        have hlen : ∀ idx ∈ emptyIndices b, ∀ q : Player,
            (emptyIndices (b.set idx (some q))).length < n ∧
              (emptyIndices (b.set idx (some q))).length < c := by
          intro idx hidx q
          rw [emptyIndices_set_length_of_cons hE hidx q]
          rw [hE] at h₁ h₂
          exact ⟨Nat.lt_of_succ_lt_succ h₁, Nat.lt_of_succ_lt_succ h₂⟩
        have hmem : ∀ idx ∈ e :: es, idx ∈ emptyIndices b := fun idx h => hE ▸ h
        cases p with
        | O =>
          rw [minimaxF_cons_O hx ho hE, minimaxF_cons_O hx ho hE]
          have he' := hlen e (hmem e (List.mem_cons_self _ _)) Player.O
          rw [ih (b.set e (some Player.O)) Player.X he'.1 he'.2]
          rw [List.map_congr_left fun idx h => by
            have h' := hlen idx (hmem idx (List.mem_cons_of_mem _ h)) Player.O
            rw [ih (b.set idx (some Player.O)) Player.X h'.1 h'.2]]
        | X =>
          rw [minimaxF_cons_X hx ho hE, minimaxF_cons_X hx ho hE]
          have he' := hlen e (hmem e (List.mem_cons_self _ _)) Player.X
          rw [ih (b.set e (some Player.X)) Player.O he'.1 he'.2]
          rw [List.map_congr_left fun idx h => by
            have h' := hlen idx (hmem idx (List.mem_cons_of_mem _ h)) Player.X
            rw [ih (b.set idx (some Player.X)) Player.O h'.1 h'.2]]

lemma minimax_eq_minimaxF {b : Board} {p : Player} {fuel : Nat}
    (h : (emptyIndices b).length < fuel) :
    minimax b p = minimaxF fuel b p :=
  minimaxF_fuel_congr _ b p
    (Nat.lt_succ_of_le (emptyIndices_length_le b)) h

/-- `minimax` at a board where 'X' has a completed line. -/
lemma minimax_win_X {b : Board} {p : Player} (h : checkWinner Player.X b = true) :
    minimax b p = ⟨none, -10⟩ :=
  minimaxF_win_X h

/-- `minimax` at a board where 'O' (and not 'X') has a completed line. -/
lemma minimax_win_O {b : Board} {p : Player}
    (hx : checkWinner Player.X b = false) (ho : checkWinner Player.O b = true) :
    minimax b p = ⟨none, 10⟩ :=
  minimaxF_win_O hx ho

/-- `minimax` at a full board without a winner. -/
lemma minimax_draw {b : Board} {p : Player}
    (hx : checkWinner Player.X b = false) (ho : checkWinner Player.O b = false)
    (hE : emptyIndices b = []) :
    minimax b p = ⟨none, 0⟩ :=
  minimaxF_draw hx ho hE

/-- Bellman unfolding of `minimax` at a non-terminal board, 'O' to move. -/
lemma minimax_cons_O {b : Board} {e : Nat} {es : List Nat}
    (hx : checkWinner Player.X b = false) (ho : checkWinner Player.O b = false)
    (hE : emptyIndices b = e :: es) :
    minimax b Player.O =
      (es.map fun idx =>
          (⟨some idx, (minimax (b.set idx (some Player.O)) Player.X).score⟩ : MMResult)).foldl
        (fun acc x => if acc.score < x.score then x else acc)
        ⟨some e, (minimax (b.set e (some Player.O)) Player.X).score⟩ := by
  have hmem : ∀ idx ∈ e :: es, idx ∈ emptyIndices b := fun idx h => hE ▸ h
  have hchild : ∀ idx ∈ e :: es,
      minimax (b.set idx (some Player.O)) Player.X =
        minimaxF b.length (b.set idx (some Player.O)) Player.X := by
    intro idx h
    apply minimax_eq_minimaxF
    rw [emptyIndices_set_length_of_cons hE (hmem idx h) Player.O]
    have : es.length + 1 ≤ b.length := by
      have := emptyIndices_length_le b
      rw [hE] at this
      exact this
    omega
  show minimaxF (b.length + 1) b Player.O = _
  rw [minimaxF_cons_O hx ho hE,
    ← hchild e (List.mem_cons_self _ _),
    List.map_congr_left fun idx h => by
      rw [← hchild idx (List.mem_cons_of_mem _ h)]]

/-- Bellman unfolding of `minimax` at a non-terminal board, 'X' to move. -/
lemma minimax_cons_X {b : Board} {e : Nat} {es : List Nat}
    (hx : checkWinner Player.X b = false) (ho : checkWinner Player.O b = false)
    (hE : emptyIndices b = e :: es) :
    minimax b Player.X =
      (es.map fun idx =>
          (⟨some idx, (minimax (b.set idx (some Player.X)) Player.O).score⟩ : MMResult)).foldl
        (fun acc x => if x.score < acc.score then x else acc)
        ⟨some e, (minimax (b.set e (some Player.X)) Player.O).score⟩ := by
  have hmem : ∀ idx ∈ e :: es, idx ∈ emptyIndices b := fun idx h => hE ▸ h
  have hchild : ∀ idx ∈ e :: es,
      minimax (b.set idx (some Player.X)) Player.O =
        minimaxF b.length (b.set idx (some Player.X)) Player.O := by
    intro idx h
    apply minimax_eq_minimaxF
    rw [emptyIndices_set_length_of_cons hE (hmem idx h) Player.X]
    have : es.length + 1 ≤ b.length := by
      have := emptyIndices_length_le b
      rw [hE] at this
      exact this
    omega
  show minimaxF (b.length + 1) b Player.X = _
  rw [minimaxF_cons_X hx ho hE,
    ← hchild e (List.mem_cons_self _ _),
    List.map_congr_left fun idx h => by
      rw [← hchild idx (List.mem_cons_of_mem _ h)]]

/-! ## The best-move selection folds

The JS selection loop keeps the first-encountered strict optimum among the
`moves` array ('O' maximizing, 'X' minimizing).  Over a strictly ascending
index list the chosen entry is therefore an optimum whose every
lower-indexed competitor is strictly worse. -/

lemma bestFold_max (g : Nat → Int) :
    ∀ (es : List Nat) (e : Nat), List.Pairwise (· < ·) (e :: es) →
    ∃ i, i ∈ e :: es ∧
      ((es.map fun idx => (⟨some idx, g idx⟩ : MMResult)).foldl
          (fun acc x => if acc.score < x.score then x else acc) ⟨some e, g e⟩ =
        ⟨some i, g i⟩) ∧
      (∀ j ∈ e :: es, g j ≤ g i) ∧
      (∀ j ∈ e :: es, j < i → g j < g i) := by
  intro es
  induction es with
  | nil =>
    intro e _
    refine ⟨e, List.mem_singleton.2 rfl, rfl, ?_, ?_⟩
    · intro j hj
      rw [List.mem_singleton.1 hj]
    · intro j hj hlt
      rw [List.mem_singleton.1 hj] at hlt
      exact absurd hlt (lt_irrefl _)
  | cons y t ih =>
    intro e hsort
    obtain ⟨he, hsort'⟩ := List.pairwise_cons.1 hsort
    have hey : e < y := he y (List.mem_cons_self _ _)
    simp only [List.map_cons, List.foldl_cons]
    by_cases hc : g e < g y
    · have hstep : (if (⟨some e, g e⟩ : MMResult).score < (⟨some y, g y⟩ : MMResult).score
          then (⟨some y, g y⟩ : MMResult) else ⟨some e, g e⟩) = ⟨some y, g y⟩ := by
        simp only [if_pos hc]
      rw [hstep]
      obtain ⟨i, hi, heq, hbound, hfirst⟩ := ih y hsort'
      refine ⟨i, List.mem_cons_of_mem _ hi, heq, ?_, ?_⟩
      · intro j hj
        rcases List.mem_cons.1 hj with h1 | h1
        · subst h1
          exact le_trans (le_of_lt hc) (hbound y (List.mem_cons_self _ _))
        · exact hbound j h1
      · intro j hj hji
        rcases List.mem_cons.1 hj with h1 | h1
        · subst h1
          exact lt_of_lt_of_le hc (hbound y (List.mem_cons_self _ _))
        · exact hfirst j h1 hji
    · have hstep : (if (⟨some e, g e⟩ : MMResult).score < (⟨some y, g y⟩ : MMResult).score
          then (⟨some y, g y⟩ : MMResult) else ⟨some e, g e⟩) = ⟨some e, g e⟩ := by
        simp only [if_neg hc]
      rw [hstep]
      have hse : List.Pairwise (· < ·) (e :: t) := by
        rw [List.pairwise_cons]
        exact ⟨fun j hj => he j (List.mem_cons_of_mem _ hj),
          (List.pairwise_cons.1 hsort').2⟩
      obtain ⟨i, hi, heq, hbound, hfirst⟩ := ih e hse
      refine ⟨i, ?_, heq, ?_, ?_⟩
      · rcases List.mem_cons.1 hi with h1 | h1
        · exact h1 ▸ List.mem_cons_self _ _
        · exact List.mem_cons_of_mem _ (List.mem_cons_of_mem _ h1)
      · intro j hj
        rcases List.mem_cons.1 hj with h1 | h1
        · rw [h1]
          exact hbound e (List.mem_cons_self _ _)
        rcases List.mem_cons.1 h1 with h2 | h2
        · rw [h2]
          exact le_trans (le_of_not_lt hc) (hbound e (List.mem_cons_self _ _))
        · exact hbound j (List.mem_cons_of_mem _ h2)
      · intro j hj hji
        rcases List.mem_cons.1 hj with h1 | h1
        · rw [h1] at hji ⊢
          exact hfirst e (List.mem_cons_self _ _) hji
        rcases List.mem_cons.1 h1 with h2 | h2
        · rw [h2] at hji ⊢
          exact lt_of_le_of_lt (le_of_not_lt hc)
            (hfirst e (List.mem_cons_self _ _) (lt_trans hey hji))
        · exact hfirst j (List.mem_cons_of_mem _ h2) hji

lemma bestFold_min (g : Nat → Int) :
    ∀ (es : List Nat) (e : Nat), List.Pairwise (· < ·) (e :: es) →
    ∃ i, i ∈ e :: es ∧
      ((es.map fun idx => (⟨some idx, g idx⟩ : MMResult)).foldl
          (fun acc x => if x.score < acc.score then x else acc) ⟨some e, g e⟩ =
        ⟨some i, g i⟩) ∧
      (∀ j ∈ e :: es, g i ≤ g j) ∧
      (∀ j ∈ e :: es, j < i → g i < g j) := by
  intro es
  induction es with
  | nil =>
    intro e _
    refine ⟨e, List.mem_singleton.2 rfl, rfl, ?_, ?_⟩
    · intro j hj
      rw [List.mem_singleton.1 hj]
    · intro j hj hlt
      rw [List.mem_singleton.1 hj] at hlt
      exact absurd hlt (lt_irrefl _)
  | cons y t ih =>
    intro e hsort
    obtain ⟨he, hsort'⟩ := List.pairwise_cons.1 hsort
    have hey : e < y := he y (List.mem_cons_self _ _)
    simp only [List.map_cons, List.foldl_cons]
    by_cases hc : g y < g e
    · have hstep : (if (⟨some y, g y⟩ : MMResult).score < (⟨some e, g e⟩ : MMResult).score
          then (⟨some y, g y⟩ : MMResult) else ⟨some e, g e⟩) = ⟨some y, g y⟩ := by
        simp only [if_pos hc]
      rw [hstep]
      obtain ⟨i, hi, heq, hbound, hfirst⟩ := ih y hsort'
      refine ⟨i, List.mem_cons_of_mem _ hi, heq, ?_, ?_⟩
      · intro j hj
        rcases List.mem_cons.1 hj with h1 | h1
        · subst h1
          exact le_trans (hbound y (List.mem_cons_self _ _)) (le_of_lt hc)
        · exact hbound j h1
      · intro j hj hji
        rcases List.mem_cons.1 hj with h1 | h1
        · subst h1
          exact lt_of_le_of_lt (hbound y (List.mem_cons_self _ _)) hc
        · exact hfirst j h1 hji
    · have hstep : (if (⟨some y, g y⟩ : MMResult).score < (⟨some e, g e⟩ : MMResult).score
          then (⟨some y, g y⟩ : MMResult) else ⟨some e, g e⟩) = ⟨some e, g e⟩ := by
        simp only [if_neg hc]
      rw [hstep]
      have hse : List.Pairwise (· < ·) (e :: t) := by
        rw [List.pairwise_cons]
        exact ⟨fun j hj => he j (List.mem_cons_of_mem _ hj),
          (List.pairwise_cons.1 hsort').2⟩
      obtain ⟨i, hi, heq, hbound, hfirst⟩ := ih e hse
      refine ⟨i, ?_, heq, ?_, ?_⟩
      · rcases List.mem_cons.1 hi with h1 | h1
        · exact h1 ▸ List.mem_cons_self _ _
        · exact List.mem_cons_of_mem _ (List.mem_cons_of_mem _ h1)
      · intro j hj
        rcases List.mem_cons.1 hj with h1 | h1
        · rw [h1]
          exact hbound e (List.mem_cons_self _ _)
        rcases List.mem_cons.1 h1 with h2 | h2
        · rw [h2]
          exact le_trans (hbound e (List.mem_cons_self _ _)) (le_of_not_lt hc)
        · exact hbound j (List.mem_cons_of_mem _ h2)
      · intro j hj hji
        rcases List.mem_cons.1 hj with h1 | h1
        · rw [h1] at hji ⊢
          exact hfirst e (List.mem_cons_self _ _) hji
        rcases List.mem_cons.1 h1 with h2 | h2
        · rw [h2] at hji ⊢
          exact lt_of_lt_of_le
            (hfirst e (List.mem_cons_self _ _) (lt_trans hey hji))
            (le_of_not_lt hc)
        · exact hfirst j (List.mem_cons_of_mem _ h2) hji

/-- `minimax` at a non-terminal board with 'O' to move picks an empty cell
whose recursive score is maximal, every lower-indexed empty cell being
strictly worse, and reports that recursive score. -/
lemma minimax_choice_O {b : Board}
    (hx : checkWinner Player.X b = false) (ho : checkWinner Player.O b = false)
    (hne : emptyIndices b ≠ []) :
    ∃ i ∈ emptyIndices b,
      minimax b Player.O = ⟨some i, (minimax (b.set i (some Player.O)) Player.X).score⟩ ∧
      (∀ j ∈ emptyIndices b,
        (minimax (b.set j (some Player.O)) Player.X).score ≤
          (minimax (b.set i (some Player.O)) Player.X).score) ∧
      (∀ j ∈ emptyIndices b, j < i →
        (minimax (b.set j (some Player.O)) Player.X).score <
          (minimax (b.set i (some Player.O)) Player.X).score) := by
  cases hE : emptyIndices b with
  | nil => exact absurd hE hne
  | cons e es =>
    have hsort : List.Pairwise (· < ·) (e :: es) := hE ▸ emptyIndices_sorted b
    obtain ⟨i, hi, heq, hbound, hfirst⟩ :=
      bestFold_max (fun idx => (minimax (b.set idx (some Player.O)) Player.X).score) es e hsort
    refine ⟨i, hi, ?_, hbound, hfirst⟩
    rw [minimax_cons_O hx ho hE]
    exact heq

/-- `minimax` at a non-terminal board with 'X' to move picks an empty cell
whose recursive score is minimal, every lower-indexed empty cell being
strictly worse for 'X', and reports that recursive score. -/
lemma minimax_choice_X {b : Board}
    (hx : checkWinner Player.X b = false) (ho : checkWinner Player.O b = false)
    (hne : emptyIndices b ≠ []) :
    ∃ i ∈ emptyIndices b,
      minimax b Player.X = ⟨some i, (minimax (b.set i (some Player.X)) Player.O).score⟩ ∧
      (∀ j ∈ emptyIndices b,
        (minimax (b.set i (some Player.X)) Player.O).score ≤
          (minimax (b.set j (some Player.X)) Player.O).score) ∧
      (∀ j ∈ emptyIndices b, j < i →
        (minimax (b.set i (some Player.X)) Player.O).score <
          (minimax (b.set j (some Player.X)) Player.O).score) := by
  cases hE : emptyIndices b with
  | nil => exact absurd hE hne
  | cons e es =>
    have hsort : List.Pairwise (· < ·) (e :: es) := hE ▸ emptyIndices_sorted b
    obtain ⟨i, hi, heq, hbound, hfirst⟩ :=
      bestFold_min (fun idx => (minimax (b.set idx (some Player.X)) Player.O).score) es e hsort
    refine ⟨i, hi, ?_, hbound, hfirst⟩
    rw [minimax_cons_X hx ho hE]
    exact heq

/-! ## Claim C2: the minimax contract -/

/-- C2: `minimax(board, player)` returns score -10 when the human mark has a
completed line, +10 when the automated mark has one, and score 0 with no
index on a full drawn board; on every non-terminal board it returns the
empty cell whose recursive score is optimal for the player to move ('O'
maximizing, 'X' minimizing, no depth discount), ties among equal-score
moves broken by the first-encountered cell index in ascending order.  (The
code tests the human mark's line first, so on the play-unreachable boards
where both marks have completed lines the -10 clause wins; such boards are
excluded by the hypothesis.) -/
theorem minimax_spec (b : Board) (p : Player)
    (hboth : ¬(checkWinner Player.X b = true ∧ checkWinner Player.O b = true)) :
    MinimaxClaim b p := by
  refine ⟨fun hX => minimax_win_X hX, ?_, fun hx ho hE => minimax_draw hx ho hE, ?_⟩
  · intro hO
    have hx : checkWinner Player.X b = false := by
      by_cases h : checkWinner Player.X b = true
      · exact absurd ⟨h, hO⟩ hboth
      · simpa using h
    exact minimax_win_O hx hO
  · intro hx ho hne
    cases p with
    | O =>
      obtain ⟨i, hi, heq, hbound, hfirst⟩ := minimax_choice_O hx ho hne
      refine ⟨i, hi, heq, fun j hj => ⟨fun _ => hbound j hj, fun hPX => ?_⟩,
        fun j hj hji => ⟨fun _ => hfirst j hj hji, fun hPX => ?_⟩⟩ <;>
        exact Player.noConfusion hPX
    | X =>
      obtain ⟨i, hi, heq, hbound, hfirst⟩ := minimax_choice_X hx ho hne
      refine ⟨i, hi, heq, fun j hj => ⟨fun hPO => ?_, fun _ => hbound j hj⟩,
        fun j hj hji => ⟨fun hPO => ?_, fun _ => hfirst j hj hji⟩⟩ <;>
        exact Player.noConfusion hPO

/-- Witness for C2 at the empty board with 'X' to move. -/
theorem minimax_spec_witness :
    ¬(checkWinner Player.X emptyBoard = true ∧ checkWinner Player.O emptyBoard = true) ∧
      MinimaxClaim emptyBoard Player.X :=
  ⟨by decide, minimax_spec emptyBoard Player.X (by decide)⟩

/-! ## Claim C4: win/block priority of the opponent policy -/

lemma find?_sorted_lt {p : Nat → Bool} :
    ∀ {l : List Nat}, List.Pairwise (· < ·) l →
    ∀ {a : Nat}, l.find? p = some a → ∀ x ∈ l, x < a → p x = false := by
  intro l
  induction l with
  | nil =>
    intro _ a h
    cases h
  | cons y t ih =>
    intro hsort a hfind x hx hxa
    obtain ⟨hy, hsort'⟩ := List.pairwise_cons.1 hsort
    by_cases hpy : p y = true
    · rw [List.find?_cons_of_pos _ hpy] at hfind
      have hay : a = y := (Option.some.inj hfind).symm
      subst hay
      rcases List.mem_cons.1 hx with h1 | h1
      · rw [h1] at hxa
        exact absurd hxa (lt_irrefl _)
      · exact absurd hxa (not_lt_of_gt (hy x h1))
    · rw [List.find?_cons_of_neg _ hpy] at hfind
      rcases List.mem_cons.1 hx with h1 | h1
      · rw [h1]
        exact Bool.not_eq_true _ ▸ hpy
      · exact ih hsort' hfind x h1 hxa

/-- C4: whenever some empty cell completes a line for 'O', `chooseMove`
takes the lowest-index such cell (leaving the random budget untouched),
regardless of difficulty; else, whenever some empty cell would complete a
line for 'X', it takes the lowest-index such blocking cell; only otherwise
does the difficulty policy (random budget or search) select the move. -/
theorem chooseMove_priority (b : Board) (d : Difficulty) (counter rand : Nat) :
    ((∃ i ∈ emptyIndices b, checkWinner Player.O (b.set i (some Player.O)) = true) →
      ∃ i ∈ emptyIndices b,
        chooseMove b d counter rand = (some i, counter) ∧
        checkWinner Player.O (b.set i (some Player.O)) = true ∧
        ∀ j ∈ emptyIndices b, j < i →
          checkWinner Player.O (b.set j (some Player.O)) = false) ∧
    ((∀ i ∈ emptyIndices b, checkWinner Player.O (b.set i (some Player.O)) = false) →
      (∃ i ∈ emptyIndices b, checkWinner Player.X (b.set i (some Player.X)) = true) →
      ∃ i ∈ emptyIndices b,
        chooseMove b d counter rand = (some i, counter) ∧
        checkWinner Player.X (b.set i (some Player.X)) = true ∧
        ∀ j ∈ emptyIndices b, j < i →
          checkWinner Player.X (b.set j (some Player.X)) = false) ∧
    ((∀ i ∈ emptyIndices b, checkWinner Player.O (b.set i (some Player.O)) = false) →
      (∀ i ∈ emptyIndices b, checkWinner Player.X (b.set i (some Player.X)) = false) →
      chooseMove b d counter rand = specDifficultyPolicy b d counter rand) := by
  refine ⟨?_, ?_, ?_⟩
  · intro hex
    have hsome : (findWinningMove Player.O b).isSome = true := by
      rw [findWinningMove, List.find?_isSome]
      obtain ⟨i, hi, hw⟩ := hex
      exact ⟨i, hi, hw⟩
    obtain ⟨w, hw⟩ := Option.isSome_iff_exists.1 hsome
    have hw' : (emptyIndices b).find?
        (fun index => checkWinner Player.O (b.set index (some Player.O))) = some w := hw
    refine ⟨w, List.mem_of_find?_eq_some hw', ?_, ?_, ?_⟩
    · simp only [chooseMove, hw]
    · exact @List.find?_some _
        (fun index => checkWinner Player.O (b.set index (some Player.O))) w
        (emptyIndices b) hw'
    · exact fun j hj hjw => find?_sorted_lt (emptyIndices_sorted b) hw' j hj hjw
  · intro hallO hex
    have hnoneO : findWinningMove Player.O b = none := by
      rw [findWinningMove, List.find?_eq_none]
      intro i hi
      show ¬checkWinner Player.O (b.set i (some Player.O)) = true
      rw [hallO i hi]
      exact Bool.false_ne_true
    have hsome : (findWinningMove Player.X b).isSome = true := by
      rw [findWinningMove, List.find?_isSome]
      obtain ⟨i, hi, hw⟩ := hex
      exact ⟨i, hi, hw⟩
    obtain ⟨w, hw⟩ := Option.isSome_iff_exists.1 hsome
    have hw' : (emptyIndices b).find?
        (fun index => checkWinner Player.X (b.set index (some Player.X))) = some w := hw
    refine ⟨w, List.mem_of_find?_eq_some hw', ?_, ?_, ?_⟩
    · simp only [chooseMove, hnoneO, hw]
    · exact @List.find?_some _
        (fun index => checkWinner Player.X (b.set index (some Player.X))) w
        (emptyIndices b) hw'
    · exact fun j hj hjw => find?_sorted_lt (emptyIndices_sorted b) hw' j hj hjw
  · intro hallO hallX
    have hnoneO : findWinningMove Player.O b = none := by
      rw [findWinningMove, List.find?_eq_none]
      intro i hi
      show ¬checkWinner Player.O (b.set i (some Player.O)) = true
      rw [hallO i hi]
      exact Bool.false_ne_true
    have hnoneX : findWinningMove Player.X b = none := by
      rw [findWinningMove, List.find?_eq_none]
      intro i hi
      show ¬checkWinner Player.X (b.set i (some Player.X)) = true
      rw [hallX i hi]
      exact Bool.false_ne_true
    simp only [chooseMove, hnoneO, hnoneX]
    cases d <;> rfl

/-- Witness for C4: the spec's scenario board `[O,O,_,X,X,_,_,_,_]` with the
automated mark to move has the immediate win at index 2, which overrides
everything else (hard difficulty shown). -/
theorem chooseMove_priority_witness :
    ∃ i ∈ emptyIndices
        [some Player.O, some Player.O, none, some Player.X, some Player.X,
          none, none, none, none],
      chooseMove
          [some Player.O, some Player.O, none, some Player.X, some Player.X,
            none, none, none, none]
          Difficulty.hard 0 0 = (some i, 0) ∧
      checkWinner Player.O
          ([some Player.O, some Player.O, none, some Player.X, some Player.X,
            none, none, none, none].set i (some Player.O)) = true ∧
      ∀ j ∈ emptyIndices
          [some Player.O, some Player.O, none, some Player.X, some Player.X,
            none, none, none, none], j < i →
        checkWinner Player.O
            ([some Player.O, some Player.O, none, some Player.X, some Player.X,
              none, none, none, none].set j (some Player.O)) = false :=
  (chooseMove_priority _ Difficulty.hard 0 0).1 (by decide)

/-! ## Claim C1: soundness of the draw certificate -/

lemma zip_total {α β : Type} : ∀ {l₁ : List α} {l₂ : List β}, l₁.length = l₂.length →
    ∀ a ∈ l₁, ∃ b, (a, b) ∈ l₁.zip l₂ := by
  intro l₁
  induction l₁ with
  | nil =>
    intro l₂ _ a ha
    cases ha
  | cons x t ih =>
    intro l₂ hlen a ha
    cases l₂ with
    | nil => simp at hlen
    | cons y t₂ =>
      rcases List.mem_cons.1 ha with h1 | h1
      · exact ⟨y, by rw [h1, List.zip_cons_cons]; exact List.mem_cons_self _ _⟩
      · obtain ⟨b, hb⟩ := ih (by simpa using hlen) a h1
        exact ⟨b, by rw [List.zip_cons_cons]; exact List.mem_cons_of_mem _ hb⟩

lemma emptyIndices_nil_of_all_isSome {b : Board}
    (h : (b.all fun cell => cell.isSome) = true) :
    emptyIndices b = [] := by
  rw [emptyIndices, List.filter_eq_nil_iff]
  intro j hj
  rw [List.mem_range] at hj
  rw [List.all_eq_true] at h
  rw [List.getD_eq_getElem b none hj]
  simp only [Option.isNone_iff_eq_none]
  exact Option.isSome_iff_ne_none.1 (h b[j] (List.getElem_mem hj))

/-- A `stop` claim entails a non-negative minimax score (for either side to
move) on a board where 'X' has not won. -/
lemma stop_sound {b : Board} {p : Player}
    (hx : checkWinner Player.X b = false)
    (h : (checkWinner Player.O b || b.all fun cell => cell.isSome) = true) :
    0 ≤ (minimax b p).score := by
  rcases Bool.or_eq_true_iff.1 h with ho | hfull
  · rw [minimax_win_O hx ho]
    decide
  · by_cases ho : checkWinner Player.O b = true
    · rw [minimax_win_O hx ho]
      decide
    · rw [Bool.not_eq_true] at ho
      rw [minimax_draw hx ho (emptyIndices_nil_of_all_isSome hfull)]

lemma checkCert_sound (fuel : Nat) :
    (∀ (c : Cert) (b : Board), b.length = 9 → checkCertX fuel c b = true →
      0 ≤ (minimax b Player.X).score) ∧
    (∀ (c : Cert) (b : Board), b.length = 9 → checkCertO fuel c b = true →
      0 ≤ (minimax b Player.O).score) := by
  induction fuel with
  | zero =>
    constructor <;> intro c b _ h <;> simp [checkCertX, checkCertO] at h
  | succ n ih =>
    obtain ⟨ihX, ihO⟩ := ih
    constructor
    · intro c b hlen h
      by_cases hx : checkWinner Player.X b = true
      · rw [show checkCertX (n + 1) c b = false by simp [checkCertX, hx]] at h
        exact absurd h Bool.false_ne_true
      rw [Bool.not_eq_true] at hx
      cases c with
      | stop =>
        rw [show checkCertX (n + 1) Cert.stop b =
            (checkWinner Player.O b || b.all fun cell => cell.isSome) by
          simp [checkCertX, hx]] at h
        exact stop_sound hx h
      | onode m k =>
        rw [show checkCertX (n + 1) (Cert.onode m k) b = false by
          simp [checkCertX, hx]] at h
        exact absurd h Bool.false_ne_true
      | xnode cs =>
        cases hE : emptyIndices b with
        | nil =>
          rw [show checkCertX (n + 1) (Cert.xnode cs) b = false by
            simp [checkCertX, hx, hE]] at h
          exact absurd h Bool.false_ne_true
        | cons e es =>
          rw [show checkCertX (n + 1) (Cert.xnode cs) b =
              (cs.length == (e :: es).length &&
                ((e :: es).zip cs).all fun p =>
                  checkCertO n p.2 (b.set p.1 (some Player.X))) by
            simp [checkCertX, hx, hE]] at h
          rw [Bool.and_eq_true] at h
          obtain ⟨hlens, hall⟩ := h
          rw [List.all_eq_true] at hall
          have hlens' : (e :: es).length = cs.length := (beq_iff_eq.1 hlens).symm
          by_cases ho : checkWinner Player.O b = true
          · rw [minimax_win_O hx ho]
            decide
          rw [Bool.not_eq_true] at ho
          obtain ⟨i, hi, heq, _, _⟩ :=
            minimax_choice_X hx ho (by rw [hE]; exact List.cons_ne_nil _ _)
          obtain ⟨co, hco⟩ := zip_total hlens' i (by rw [hE] at hi; exact hi)
          rw [heq]
          show (0 : Int) ≤ (minimax (b.set i (some Player.X)) Player.O).score
          exact ihO co _ (by rw [length_set]; exact hlen) (hall (i, co) hco)
    · intro c b hlen h
      by_cases hx : checkWinner Player.X b = true
      · rw [show checkCertO (n + 1) c b = false by simp [checkCertO, hx]] at h
        exact absurd h Bool.false_ne_true
      rw [Bool.not_eq_true] at hx
      cases c with
      | stop =>
        rw [show checkCertO (n + 1) Cert.stop b =
            (checkWinner Player.O b || b.all fun cell => cell.isSome) by
          simp [checkCertO, hx]] at h
        exact stop_sound hx h
      | xnode cs =>
        rw [show checkCertO (n + 1) (Cert.xnode cs) b = false by
          simp [checkCertO, hx]] at h
        exact absurd h Bool.false_ne_true
      | onode m k =>
        rw [show checkCertO (n + 1) (Cert.onode m k) b =
            (decide (m < b.length) && (b.getD m none).isNone &&
              checkCertX n k (b.set m (some Player.O))) by
          simp [checkCertO, hx]] at h
        rw [Bool.and_eq_true, Bool.and_eq_true] at h
        obtain ⟨⟨hmlt, hmnone⟩, hcert⟩ := h
        have hmem : m ∈ emptyIndices b :=
          mem_emptyIndices.2 ⟨of_decide_eq_true hmlt, Option.isNone_iff_eq_none.1 hmnone⟩
        by_cases ho : checkWinner Player.O b = true
        · rw [minimax_win_O hx ho]
          decide
        rw [Bool.not_eq_true] at ho
        have hne : emptyIndices b ≠ [] := fun hE => by
          rw [hE] at hmem
          exact absurd hmem (List.not_mem_nil m)
        obtain ⟨i, hi, heq, hbound, _⟩ := minimax_choice_O hx ho hne
        rw [heq]
        show (0 : Int) ≤ (minimax (b.set i (some Player.O)) Player.X).score
        refine le_trans ?_ (hbound m hmem)
        exact ihX k _ (by rw [length_set]; exact hlen) hcert

set_option maxHeartbeats 8000000 in
/-- Kernel evaluation of the draw certificate from the empty board. -/
lemma drawCert_empty : checkCertX 10 drawCert emptyBoard = true := by decide

/-- The empty board is worth at least a draw to the mover 'X' facing an
optimal 'O'. -/
lemma score_empty_nonneg : 0 ≤ (minimax emptyBoard Player.X).score :=
  (checkCert_sound 10).1 drawCert emptyBoard rfl drawCert_empty

/-! ## Claim C1: the safety invariant of hard-difficulty play -/

lemma hardReach_inv {b : Board} {p : Player} (h : HardReach b p) :
    b.length = 9 ∧ checkWinner Player.X b = false ∧
    (p = Player.X → checkWinner Player.O b = false →
      0 ≤ (minimax b Player.X).score) ∧
    (p = Player.O → checkWinner Player.O b = false →
      0 ≤ (minimax b Player.O).score) := by
  induction h with
  | init =>
    exact ⟨rfl, by decide, fun _ _ => score_empty_nonneg,
      fun hPO _ => Player.noConfusion hPO⟩
  | xstep b i hreach hx ho hi ih =>
    obtain ⟨hlen, _, hvalX, _⟩ := ih
    have hval : 0 ≤ (minimax b Player.X).score := hvalX rfl ho
    have hne : emptyIndices b ≠ [] := fun hE => by
      rw [hE] at hi
      exact absurd hi (List.not_mem_nil i)
    obtain ⟨i₀, hi₀, heq, hbound, _⟩ := minimax_choice_X hx ho hne
    have hminle : ∀ j ∈ emptyIndices b,
        (minimax b Player.X).score ≤ (minimax (b.set j (some Player.X)) Player.O).score := by
      intro j hj
      rw [heq]
      exact hbound j hj
    have hchild : 0 ≤ (minimax (b.set i (some Player.X)) Player.O).score :=
      le_trans hval (hminle i hi)
    have hxnew : checkWinner Player.X (b.set i (some Player.X)) = false := by
      by_cases hw : checkWinner Player.X (b.set i (some Player.X)) = true
      · exfalso
        have hm10 : (minimax (b.set i (some Player.X)) Player.O).score = -10 := by
          rw [minimax_win_X hw]
        rw [hm10] at hchild
        exact absurd hchild (by decide)
      · simpa using hw
    exact ⟨by rw [length_set]; exact hlen, hxnew,
      fun hPX => Player.noConfusion hPX, fun _ _ => hchild⟩
  | ostep b hreach hx ho hne ih =>
    obtain ⟨hlen, _, _, hvalO⟩ := ih
    have hval : 0 ≤ (minimax b Player.O).score := hvalO rfl ho
    rcases hfwO : findWinningMove Player.O b with _ | w
    · rcases hfwX : findWinningMove Player.X b with _ | c
      · -- neither immediate win nor block: the minimax move
        obtain ⟨i₀, hi₀, heq, hbound, _⟩ := minimax_choice_O hx ho hne
        have hsel : (chooseMove b Difficulty.hard 0 0).1 = some i₀ := by
          simp only [chooseMove, hfwO, hfwX]
          rw [heq]
        have hb' : oMoveHard b = b.set i₀ (some Player.O) := by
          rw [oMoveHard, hsel]
        have hchild : 0 ≤ (minimax (b.set i₀ (some Player.O)) Player.X).score := by
          have hs : (minimax b Player.O).score =
              (minimax (b.set i₀ (some Player.O)) Player.X).score := by
            rw [heq]
          rw [← hs]
          exact hval
        have hxnew : checkWinner Player.X (oMoveHard b) = false := by
          rw [hb',
            checkWinner_set_of_ne (show Player.X ≠ Player.O by decide)
              (mem_emptyIndices.1 hi₀).2]
          exact hx
        refine ⟨by rw [hb', length_set]; exact hlen, hxnew, ?_,
          fun hPO => Player.noConfusion hPO⟩
        intro _ _
        rw [hb']
        exact hchild
      · -- block: X has a winning cell, the least one is c; it must be unique
        have hselc : (chooseMove b Difficulty.hard 0 0).1 = some c := by
          simp only [chooseMove, hfwO, hfwX]
        have hb' : oMoveHard b = b.set c (some Player.O) := by
          rw [oMoveHard, hselc]
        have hcX' : (emptyIndices b).find?
            (fun index => checkWinner Player.X (b.set index (some Player.X))) =
              some c := hfwX
        have hmemc : c ∈ emptyIndices b := List.mem_of_find?_eq_some hcX'
        have hcwin : checkWinner Player.X (b.set c (some Player.X)) = true :=
          @List.find?_some _
            (fun index => checkWinner Player.X (b.set index (some Player.X))) c
            (emptyIndices b) hcX'
        have hnoO : ∀ j ∈ emptyIndices b,
            checkWinner Player.O (b.set j (some Player.O)) = false := by
          intro j hj
          have h0 : (emptyIndices b).find?
              (fun index => checkWinner Player.O (b.set index (some Player.O))) =
                none := hfwO
          have := List.find?_eq_none.1 h0 j hj
          simpa using this
        obtain ⟨i₀, hi₀, heq, hbound, _⟩ := minimax_choice_O hx ho hne
        have hvali₀ : 0 ≤ (minimax (b.set i₀ (some Player.O)) Player.X).score := by
          have hs : (minimax b Player.O).score =
              (minimax (b.set i₀ (some Player.O)) Player.X).score := by
            rw [heq]
          rw [← hs]
          exact hval
        have hceq : c = i₀ := by
          by_contra hne'
          have hi₀mem := mem_emptyIndices.1 hi₀
          have hcmem := mem_emptyIndices.1 hmemc
          have hxb1 : checkWinner Player.X (b.set i₀ (some Player.O)) = false := by
            rw [checkWinner_set_of_ne (show Player.X ≠ Player.O by decide) hi₀mem.2]
            exact hx
          have hob1 : checkWinner Player.O (b.set i₀ (some Player.O)) = false :=
            hnoO i₀ hi₀
          have hcb1 : c ∈ emptyIndices (b.set i₀ (some Player.O)) := by
            refine mem_emptyIndices.2 ⟨?_, ?_⟩
            · rw [length_set]
              exact hcmem.1
            · rw [getD_set, if_neg (fun hcc => hne' hcc.1.symm)]
              exact hcmem.2
          have hneb1 : emptyIndices (b.set i₀ (some Player.O)) ≠ [] := fun hEE => by
            rw [hEE] at hcb1
            exact absurd hcb1 (List.not_mem_nil c)
          obtain ⟨i₁, hi₁, heq1, hbound1, _⟩ := minimax_choice_X hxb1 hob1 hneb1
          have hminle : (minimax (b.set i₀ (some Player.O)) Player.X).score ≤
              (minimax ((b.set i₀ (some Player.O)).set c (some Player.X)) Player.O).score := by
            rw [heq1]
            exact hbound1 c hcb1
          have hwinc : checkWinner Player.X
              ((b.set i₀ (some Player.O)).set c (some Player.X)) = true := by
            rw [List.set_comm _ _ _ (fun hh => hne' hh.symm)]
            rw [checkWinner_set_of_ne (show Player.X ≠ Player.O by decide) ?hempty]
            · exact hcwin
            case hempty =>
              rw [getD_set, if_neg (fun hcc => hne' hcc.1)]
              exact hi₀mem.2
          have hm10 : (minimax ((b.set i₀ (some Player.O)).set c (some Player.X))
              Player.O).score = -10 := by
            rw [minimax_win_X hwinc]
          rw [hm10] at hminle
          exact absurd (le_trans hvali₀ hminle) (by decide)
        refine ⟨by rw [hb', length_set]; exact hlen, ?_, ?_,
          fun hPO => Player.noConfusion hPO⟩
        · rw [hb',
            checkWinner_set_of_ne (show Player.X ≠ Player.O by decide)
              (mem_emptyIndices.1 hmemc).2]
          exact hx
        · intro _ _
          rw [hb', hceq]
          exact hvali₀
    · -- immediate win for O
      have hsel : (chooseMove b Difficulty.hard 0 0).1 = some w := by
        simp only [chooseMove, hfwO]
      have hb' : oMoveHard b = b.set w (some Player.O) := by
        rw [oMoveHard, hsel]
      have hw' : (emptyIndices b).find?
          (fun index => checkWinner Player.O (b.set index (some Player.O))) =
            some w := hfwO
      have hwin : checkWinner Player.O (b.set w (some Player.O)) = true :=
        @List.find?_some _
          (fun index => checkWinner Player.O (b.set index (some Player.O))) w
          (emptyIndices b) hw'
      have hmemw : w ∈ emptyIndices b := List.mem_of_find?_eq_some hw'
      have hxnew : checkWinner Player.X (b.set w (some Player.O)) = false := by
        rw [checkWinner_set_of_ne (show Player.X ≠ Player.O by decide)
          (mem_emptyIndices.1 hmemw).2]
        exact hx
      refine ⟨by rw [hb', length_set]; exact hlen, by rw [hb']; exact hxnew, ?_,
        fun hPO => Player.noConfusion hPO⟩
      intro _ honew
      exfalso
      rw [hb'] at honew
      rw [honew] at hwin
      exact Bool.false_ne_true hwin

/-- C1: for every legal sequence of human 'X' moves from the empty board
against the hard-difficulty opponent moving second, 'X' never completes a
line — so every finished game is an automated-mark win or a draw. -/
theorem hard_never_loses {b : Board} {p : Player} (h : HardReach b p) :
    checkWinner Player.X b = false :=
  (hardReach_inv h).2.1

/-- Witness for C1 at the initial position. -/
theorem hard_never_loses_witness : checkWinner Player.X emptyBoard = false :=
  hard_never_loses HardReach.init

/-! ## State-machine helper lemmas -/

lemma makeMove_fields (s : GameState) (index : Nat) (player : Player) :
    (makeMove s index player).moveHistory =
      ⟨index, player, s.board.set index (some player), s.aiRandomMovesUsed⟩ ::
        s.moveHistory ∧
    (makeMove s index player).allMoves =
      s.allMoves ++ [⟨index, player, s.board.set index (some player),
        s.aiRandomMovesUsed⟩] ∧
    (makeMove s index player).redoHistory = [] := by
  simp only [makeMove]
  split_ifs <;> exact ⟨rfl, rfl, rfl⟩

lemma displayReviewMove_fields (s : GameState) :
    (displayReviewMove s).moveHistory = s.moveHistory ∧
    (displayReviewMove s).allMoves = s.allMoves ∧
    (displayReviewMove s).redoHistory = s.redoHistory := by
  simp only [displayReviewMove]
  split_ifs
  · cases s.allMoves.get? s.reviewIndex.toNat <;> exact ⟨rfl, rfl, rfl⟩
  · exact ⟨rfl, rfl, rfl⟩


lemma moveForward_cons_fields {s : GameState} {nextMove : MoveData} {rest : List MoveData}
    (hrev : s.reviewMode = false) (hq : s.redoHistory = nextMove :: rest) :
    (moveForward s).moveHistory = nextMove :: s.moveHistory ∧
    (moveForward s).allMoves = s.allMoves ++ [nextMove] ∧
    (moveForward s).redoHistory = rest ∧
    (moveForward s).board = nextMove.board ∧
    (moveForward s).currentPlayer = otherPlayer nextMove.player ∧
    (moveForward s).aiRandomMovesUsed = nextMove.aiRandomMovesUsed := by
  simp only [moveForward, hrev, hq, Bool.false_eq_true, if_false]
  split_ifs <;> simp

lemma moveBackward_nil_fields {s : GameState} {lastMove : MoveData}
    (hrev : s.reviewMode = false) (hm : s.moveHistory = [lastMove]) :
    (moveBackward s).moveHistory = [] ∧
    (moveBackward s).redoHistory = s.redoHistory ++ [lastMove] ∧
    (moveBackward s).allMoves = s.allMoves.dropLast ∧
    (moveBackward s).reviewMode = false ∧
    (moveBackward s).board = emptyBoard ∧
    (moveBackward s).currentPlayer = Player.X ∧
    (moveBackward s).aiRandomMovesUsed = 0 := by
  simp only [moveBackward, hrev, hm, Bool.false_eq_true, if_false]
  simp

lemma moveBackward_cons_fields {s : GameState} {lastMove prevMove : MoveData}
    {t : List MoveData}
    (hrev : s.reviewMode = false) (hm : s.moveHistory = lastMove :: prevMove :: t) :
    (moveBackward s).moveHistory = prevMove :: t ∧
    (moveBackward s).redoHistory = s.redoHistory ++ [lastMove] ∧
    (moveBackward s).allMoves = s.allMoves.dropLast ∧
    (moveBackward s).reviewMode = false ∧
    (moveBackward s).board = prevMove.board ∧
    (moveBackward s).currentPlayer = otherPlayer prevMove.player ∧
    (moveBackward s).aiRandomMovesUsed = prevMove.aiRandomMovesUsed := by
  simp only [moveBackward, hrev, hm, Bool.false_eq_true, if_false]
  simp

lemma moveBackward_review_fields {s : GameState} (hrev : s.reviewMode = true) :
    (moveBackward s).moveHistory = s.moveHistory ∧
    (moveBackward s).allMoves = s.allMoves ∧
    (moveBackward s).redoHistory = s.redoHistory := by
  simp only [moveBackward, hrev, if_true]
  split_ifs
  · exact displayReviewMove_fields _
  · exact ⟨rfl, rfl, rfl⟩

lemma moveForward_review_fields {s : GameState} (hrev : s.reviewMode = true) :
    (moveForward s).moveHistory = s.moveHistory ∧
    (moveForward s).allMoves = s.allMoves ∧
    (moveForward s).redoHistory = s.redoHistory := by
  simp only [moveForward, hrev, if_true]
  split_ifs
  · exact displayReviewMove_fields _
  · exact ⟨rfl, rfl, rfl⟩

lemma moveBackward_nil_hist {s : GameState}
    (hrev : s.reviewMode = false) (hm : s.moveHistory = []) : moveBackward s = s := by
  simp only [moveBackward, hrev, hm, Bool.false_eq_true, if_false]

lemma moveForward_nil {s : GameState}
    (hrev : s.reviewMode = false) (hq : s.redoHistory = []) : moveForward s = s := by
  simp only [moveForward, hrev, hq, Bool.false_eq_true, if_false]

/-! ## Claim C7: committing a move clears the redo queue and ends the log -/

/-- C7: immediately after `makeMove` commits a record (in any state,
including after any number of undos), the redo queue is empty and the full
log ends with the committed record. -/
theorem commit_clears_redo_appends_log (s : GameState) (index : Nat) (player : Player) :
    (makeMove s index player).redoHistory = [] ∧
    (makeMove s index player).allMoves.getLast? =
      some ⟨index, player, s.board.set index (some player), s.aiRandomMovesUsed⟩ := by
  obtain ⟨_, h2, h3⟩ := makeMove_fields s index player
  exact ⟨h3, by rw [h2]; exact List.getLast?_concat _⟩

/-! ## Claim C8: invalid clicks are complete no-ops -/

/-- C8: a player click is a complete no-op (the whole state unchanged, no
crash) whenever the target cell is occupied, the index is outside `[0,8]`,
the session is not live, or review mode is active. -/
theorem invalid_click_noop (s : GameState) (index : Nat)
    (hlen : s.board.length = 9)
    (h : 9 ≤ index ∨ (s.board.getD index none).isSome = true ∨
      s.gameActive = false ∨ s.reviewMode = true) :
    handleCellClick s index = s := by
  rw [handleCellClick]
  have hcond : (s.reviewMode || !s.gameActive
      || !(decide (index < s.board.length) && (s.board.getD index none).isNone)
      || s.currentPlayer != Player.X) = true := by
    rcases h with h | h | h | h
    · have hnot : ¬(index < s.board.length) := by
        rw [hlen]
        omega
      simp [hnot]
    · rcases Option.isSome_iff_exists.1 h with ⟨v, hv⟩
      rw [List.getD_eq_getElem?_getD] at hv
      simp [hv]
    · simp [h]
    · simp [h]
  rw [if_pos hcond]

/-- Witness for C8: an out-of-range click on the fresh state. -/
theorem invalid_click_noop_witness :
    (initialState Difficulty.hard).board.length = 9 ∧
    (9 ≤ 10 ∨ ((initialState Difficulty.hard).board.getD 10 none).isSome = true ∨
      (initialState Difficulty.hard).gameActive = false ∨
      (initialState Difficulty.hard).reviewMode = true) ∧
    handleCellClick (initialState Difficulty.hard) 10 = initialState Difficulty.hard :=
  ⟨by decide, Or.inl (by decide),
    invalid_click_noop (initialState Difficulty.hard) 10 (by decide) (Or.inl (by decide))⟩

/-! ## Claim C9: the winner check never reports both marks -/

/-- C9: on every board reachable from the empty board by alternating legal
moves, `checkWinner('X')` and `checkWinner('O')` are not both true. -/
theorem winner_exclusive {b : Board} {p : Player} (h : PlayReach b p) :
    ¬(checkWinner Player.X b = true ∧ checkWinner Player.O b = true) := by
  induction h with
  | init p => decide
  | step b p i hreach hx ho hi ih =>
    rintro ⟨hX, hO⟩
    cases p with
    | X =>
      rw [checkWinner_set_of_ne (show Player.O ≠ Player.X by decide)
        (mem_emptyIndices.1 hi).2] at hO
      rw [ho] at hO
      exact Bool.false_ne_true hO
    | O =>
      rw [checkWinner_set_of_ne (show Player.X ≠ Player.O by decide)
        (mem_emptyIndices.1 hi).2] at hX
      rw [hx] at hX
      exact Bool.false_ne_true hX

/-- Witness for C9 at the empty board. -/
theorem winner_exclusive_witness :
    ¬(checkWinner Player.X emptyBoard = true ∧ checkWinner Player.O emptyBoard = true) :=
  winner_exclusive (PlayReach.init Player.X)

/-! ## Claim C10: the undo stack always mirrors the full log -/

/-- C10: at every reachable state, the undo stack read oldest-to-newest
equals the full move log `allMoves`: commits push to both, undo pops both,
redo pushes both back, reset clears both, so the log never retains an
undone move. -/
theorem undoStack_matches_log {s : GameState} (h : Reach s) :
    s.moveHistory.reverse = s.allMoves := by
  induction h with
  | init d => rfl
  | click s i hr ih =>
    rw [handleCellClick]
    split_ifs
    · exact ih
    · obtain ⟨h1, h2, _⟩ := makeMove_fields s i Player.X
      rw [h1, h2, List.reverse_cons, ih]
  | computer s r hr ih =>
    rw [computerMove]
    split_ifs
    · exact ih
    · rcases hc : chooseMove s.board s.difficulty s.aiRandomMovesUsed r with ⟨_ | m, counter⟩
      · exact ih
      · show (makeMove { s with aiRandomMovesUsed := counter } m Player.O).moveHistory.reverse =
          (makeMove { s with aiRandomMovesUsed := counter } m Player.O).allMoves
        obtain ⟨h1, h2, _⟩ :=
          makeMove_fields { s with aiRandomMovesUsed := counter } m Player.O
        rw [h1, h2, List.reverse_cons]
        exact congrArg (· ++ _) ih
  | backward s hr ih =>
    by_cases hrev : s.reviewMode = true
    · obtain ⟨h1, h2, _⟩ := moveBackward_review_fields hrev
      rw [h1, h2]
      exact ih
    · have hrev' : s.reviewMode = false := by simpa using hrev
      cases hm : s.moveHistory with
      | nil =>
        rw [moveBackward_nil_hist hrev' hm]
        exact ih
      | cons lastMove rest =>
        rw [hm, List.reverse_cons] at ih
        cases rest with
        | nil =>
          obtain ⟨h1, _, h3, _, _, _, _⟩ := moveBackward_nil_fields hrev' hm
          rw [h1, h3, ← ih, List.dropLast_concat]
        | cons prevMove t =>
          obtain ⟨h1, _, h3, _, _, _, _⟩ := moveBackward_cons_fields hrev' hm
          rw [h1, h3, ← ih, List.dropLast_concat]
  | forward s hr ih =>
    by_cases hrev : s.reviewMode = true
    · obtain ⟨h1, h2, _⟩ := moveForward_review_fields hrev
      rw [h1, h2]
      exact ih
    · have hrev' : s.reviewMode = false := by simpa using hrev
      cases hq : s.redoHistory with
      | nil =>
        rw [moveForward_nil hrev' hq]
        exact ih
      | cons nextMove rest =>
        obtain ⟨h1, h2, _, _, _, _⟩ := moveForward_cons_fields hrev' hq
        rw [h1, h2, List.reverse_cons, ih]
  | review s hr ih =>
    rw [startReview]
    split_ifs <;> exact ih
  | reset s hr ih => rfl
  | difficulty s d hr ih => rfl

/-- Witness for C10 at the initial state. -/
theorem undoStack_matches_log_witness :
    (initialState Difficulty.hard).moveHistory.reverse = (initialState Difficulty.hard).allMoves :=
  undoStack_matches_log (Reach.init Difficulty.hard)

/-! ## Claim C3: the undo/redo round trip -/

/-- C3 (amended): in a consistent live-play state — the board, active mark
and random-move counter agree with the top record of the non-empty undo
stack — whose redo queue is empty, `undo()` followed immediately by
`redo()` restores exactly the board, the active mark, and the random-move
counter.  (With a non-empty redo queue the code dequeues the oldest undone
record instead of the one just pushed, see the counterexample.) -/
theorem undo_redo_roundtrip (s : GameState) (m : MoveData) (rest : List MoveData)
    (_hlive : s.gameActive = true) (hrev : s.reviewMode = false)
    (hstack : s.moveHistory = m :: rest) (hredo : s.redoHistory = [])
    (hb : s.board = m.board) (hp : s.currentPlayer = otherPlayer m.player)
    (hc : s.aiRandomMovesUsed = m.aiRandomMovesUsed) :
    (moveForward (moveBackward s)).board = s.board ∧
    (moveForward (moveBackward s)).currentPlayer = s.currentPlayer ∧
    (moveForward (moveBackward s)).aiRandomMovesUsed = s.aiRandomMovesUsed := by
  cases rest with
  | nil =>
    obtain ⟨_, hq1, _, hrev1, _, _, _⟩ := moveBackward_nil_fields hrev hstack
    rw [hredo, List.nil_append] at hq1
    obtain ⟨_, _, _, hb2, hp2, hc2⟩ := moveForward_cons_fields hrev1 hq1
    exact ⟨by rw [hb2, hb], by rw [hp2, hp], by rw [hc2, hc]⟩
  | cons prevMove t =>
    obtain ⟨_, hq1, _, hrev1, _, _, _⟩ := moveBackward_cons_fields hrev hstack
    rw [hredo, List.nil_append] at hq1
    obtain ⟨_, _, _, hb2, hp2, hc2⟩ := moveForward_cons_fields hrev1 hq1
    exact ⟨by rw [hb2, hb], by rw [hp2, hp], by rw [hc2, hc]⟩

/-- Witness for C3 (amended): the state after the first human move. -/
theorem undo_redo_roundtrip_witness :
    (moveForward (moveBackward (makeMove (initialState Difficulty.hard) 0 Player.X))).board =
      (makeMove (initialState Difficulty.hard) 0 Player.X).board ∧
    (moveForward (moveBackward
        (makeMove (initialState Difficulty.hard) 0 Player.X))).currentPlayer =
      (makeMove (initialState Difficulty.hard) 0 Player.X).currentPlayer ∧
    (moveForward (moveBackward
        (makeMove (initialState Difficulty.hard) 0 Player.X))).aiRandomMovesUsed =
      (makeMove (initialState Difficulty.hard) 0 Player.X).aiRandomMovesUsed :=
  undo_redo_roundtrip (makeMove (initialState Difficulty.hard) 0 Player.X)
    ⟨0, Player.X, emptyBoard.set 0 (some Player.X), 0⟩ []
    (by decide) (by decide) (by decide) (by decide) (by decide) (by decide) (by decide)

/-- Counterexample to C3 as stated: a live-play state with a non-empty undo
stack (reached by: human plays cell 0, the medium opponent randomly plays
cell 4, undo twice, redo once — the redo queue then still holds an undone
record) for which `undo(); redo()` does not restore the prior board: the
queue yields the oldest undone record, not the record just pushed. -/
theorem undo_redo_roundtrip_counterexample :
    (fun s => s.gameActive = true ∧ s.reviewMode = false ∧ s.moveHistory ≠ [] ∧
        (moveForward (moveBackward s)).board ≠ s.board)
      (moveForward (moveBackward (moveBackward
        (computerMove (handleCellClick (initialState Difficulty.medium) 0) 3)))) := by
  decide

/-! ## Claim C5: review-mode stepBackward at index 0 -/

/-- C5, behaviour of the code at the failing input: enter review after one
recorded move, step forward once (review index 0); the claimed behaviour of
`stepBackward()` is to decrement the index to -1 and display the empty
board, but the code's guard `reviewIndex > 0` makes the call a complete
no-op, leaving the index at 0. -/
theorem review_stepBackward_stuck_at_zero :
    (moveForward (startReview (makeMove (initialState Difficulty.hard) 0 Player.X))).reviewMode
        = true ∧
    (moveForward (startReview (makeMove (initialState Difficulty.hard) 0 Player.X))).reviewIndex
        = 0 ∧
    moveBackward (moveForward (startReview (makeMove (initialState Difficulty.hard) 0 Player.X)))
        = moveForward (startReview (makeMove (initialState Difficulty.hard) 0 Player.X)) := by
  decide

/-! ## Claim C6: a pending deferred computer move survives a reset -/

/-- C6, behaviour of the code at the failing input: the human clicks cell 0
(scheduling the deferred `computerMove`), `resetGame()` runs before the
timer fires, and then the stale callback executes: since the reset leaves
`gameActive = true`, the callback passes its only guard and plays 'O' on
the fresh empty board, changing the post-reset board. -/
theorem stale_timer_fires_after_reset :
    (resetGame (handleCellClick (initialState Difficulty.medium) 0)).gameActive = true ∧
    (computerMove (resetGame (handleCellClick (initialState Difficulty.medium) 0)) 0).board ≠
      (resetGame (handleCellClick (initialState Difficulty.medium) 0)).board := by
  decide
